import Mathlib

/-!
# Call correlation layer of the Thrift Go client (`client.go`)

A shallow embedding of `TStandardClient.Send`, `TStandardClient.Recv` and
`TStandardClient.Call`.

* The collaborators of `client.go` (protocol channels, payload structs, the call
  context) are interfaces; they are embedded as records of state transformers over
  an arbitrary world state `σ`, which holds whatever the collaborators own
  (buffers, the remote peer, the payload values).
* Each embedded function returns, next to its Go result and the new world state,
  the list of collaborator operations it invoked, in program order.
* `int32` values are integers; the only arithmetic on them, `p.seqId++`, wraps
  through `wrap32`.
-/

namespace Thrift

/-! ## Values declared elsewhere in the package -/

/-- Go `type TMessageType int32`. -/
abbrev TMessageType := Int

/-- Modelled from the spec: the message kind CALL, declared outside `client.go`;
the numeric values of the four kinds are those of the Thrift wire format. -/
def CALL : TMessageType := 1

/-- Modelled from the spec: the message kind REPLY, declared outside `client.go`. -/
def REPLY : TMessageType := 2

/-- Modelled from the spec: the message kind EXCEPTION, declared outside `client.go`. -/
def EXCEPTION : TMessageType := 3

/-- Modelled from the spec: the message kind ONEWAY, declared outside `client.go`. -/
def ONEWAY : TMessageType := 4

/-- Modelled from the spec: type code of the application-level error
"invalid message type", declared outside `client.go`. -/
def INVALID_MESSAGE_TYPE_EXCEPTION : Int := 2

/-- Modelled from the spec: type code of the application-level error
"wrong method name", declared outside `client.go`. -/
def WRONG_METHOD_NAME : Int := 3

/-- Modelled from the spec: type code of the application-level error
"out of order sequence response", declared outside `client.go`. -/
def BAD_SEQUENCE_ID : Int := 4

/-- A Go `error` value that is not nil: either an application exception (numeric
kind code and message), or any other error value a collaborator may return,
identified by a tag. -/
inductive TError where
  | applicationException (typeId : Int) (message : String)
  | other (tag : String)
  deriving DecidableEq, Repr

/-- Modelled from the spec: `NewTApplicationException(type, message)`, declared outside
`client.go`, builds the application-level error carrying that type code and message. -/
def NewTApplicationException (typeId : Int) (message : String) : TError :=
  TError.applicationException typeId message

/-- Modelled from the spec: the ambient call context, read through `GetWriteHeaderList`
and `GetHeader` (declared outside `client.go`): an ordered list of header keys to
propagate and a lookup from key to current value. -/
structure Context where
  writeHeaderList : List String
  header : String → Option String

/-- `GetWriteHeaderList(ctx)`. -/
def GetWriteHeaderList (ctx : Context) : List String := ctx.writeHeaderList

/-- `GetHeader(ctx, key)`: the value and the `ok` flag, as an option. -/
def GetHeader (ctx : Context) (key : String) : Option String := ctx.header key

/-! ## Collaborator interfaces -/

/-- The header capability of a channel (`*THeaderProtocol`): the two methods `Send` uses. -/
structure THeaderProtocol (σ : Type) where
  ClearWriteHeaders : σ → σ
  SetWriteHeader : String → String → σ → σ

/-- The `TProtocol` interface, restricted to the methods `client.go` invokes. A method
returning `error` yields `none` for nil. `asHeader` is the outcome of the type assertion
`oprot.(*THeaderProtocol)`. `ReadApplicationException` stands for
`tApplicationException.Read(iprot)` on a zero exception value: it decodes the kind code
and the message of a remote exception from the channel. -/
structure TProtocol (σ : Type) where
  WriteMessageBegin : String → TMessageType → Int → σ → Option TError × σ
  WriteMessageEnd : σ → Option TError × σ
  Flush : Context → σ → Option TError × σ
  ReadMessageBegin : σ → Except TError (String × TMessageType × Int) × σ
  ReadMessageEnd : σ → Option TError × σ
  ReadApplicationException : σ → Except TError (Int × String) × σ
  asHeader : Option (THeaderProtocol σ)

/-- The `TStruct` interface: `Write(oprot)` and `Read(iprot)`, and the outcome of
`json.Marshal` on the payload in a given world state. -/
structure TStruct (σ : Type) where
  Write : TProtocol σ → σ → Option TError × σ
  Read : TProtocol σ → σ → Option TError × σ
  Marshal : σ → Except TError String

/-- Operations invoked on collaborators, as recorded in program order.
`ClearWriteHeaders` .. `Flush` are performed on the output channel handed to `Send`
(`ArgsWrite` is `args.Write(oprot)`); `ReadMessageBegin` .. `ReadMessageEnd` are performed
on the input channel handed to `Recv` (`ExceptionRead` is `exception.Read(iprot)`,
`ResultRead` is `result.Read(iprot)`); `Println` is the diagnostic line. -/
inductive Event where
  | ClearWriteHeaders
  | SetWriteHeader (key value : String)
  | WriteMessageBegin (name : String) (typeId : TMessageType) (seqId : Int)
  | ArgsWrite
  | WriteMessageEnd
  | Flush
  | ReadMessageBegin
  | ExceptionRead
  | ResultRead
  | ReadMessageEnd
  | Println (line : String)
  deriving DecidableEq, Repr

/-- Whether the operation is performed on the input channel. -/
def Event.onInput : Event → Bool
  | .ReadMessageBegin => true
  | .ExceptionRead => true
  | .ResultRead => true
  | .ReadMessageEnd => true
  | _ => false

/-- Whether the operation is performed on the output channel. -/
def Event.onOutput : Event → Bool
  | .ClearWriteHeaders => true
  | .SetWriteHeader _ _ => true
  | .WriteMessageBegin _ _ _ => true
  | .ArgsWrite => true
  | .WriteMessageEnd => true
  | .Flush => true
  | _ => false

/-- Whether the operation is one of the two header operations. -/
def Event.isHeaderOp : Event → Bool
  | .ClearWriteHeaders => true
  | .SetWriteHeader _ _ => true
  | _ => false

/-- The sequence ids passed to `WriteMessageBegin`, in order. -/
def writtenSeqIds : List Event → List Int
  | [] => []
  | .WriteMessageBegin _ _ seqId :: es => seqId :: writtenSeqIds es
  | _ :: es => writtenSeqIds es

/-! ## 32-bit arithmetic -/

/-- Reduction of an integer to the signed 32-bit range. -/
def wrap32 (x : Int) : Int := (x + 2 ^ 31) % 2 ^ 32 - 2 ^ 31

/-! ## `Send` -/

/-- The loop `for _, key := range GetWriteHeaderList(ctx)` of `Send`, over the keys still
to visit. -/
def setWriteHeaders {σ : Type} (ctx : Context) (headerProt : THeaderProtocol σ) :
    List String → σ → σ × List Event
  | [], s => (s, [])
  | key :: keys, s =>
    match GetHeader ctx key with
    | some value =>
      let r := setWriteHeaders ctx headerProt keys (headerProt.SetWriteHeader key value s)
      (r.1, Event.SetWriteHeader key value :: r.2)
    | none => setWriteHeaders ctx headerProt keys s

/-- The header step of `Send` (lines 36-43). -/
def sendHeaders {σ : Type} (ctx : Context) (oprot : TProtocol σ) (s : σ) : σ × List Event :=
  match oprot.asHeader with
  | some headerProt =>
    let r := setWriteHeaders ctx headerProt (GetWriteHeaderList ctx) (headerProt.ClearWriteHeaders s)
    (r.1, Event.ClearWriteHeaders :: r.2)
  | none => (s, [])

/-- The message part of `Send` (lines 45-54). -/
def sendMessage {σ : Type} (ctx : Context) (oprot : TProtocol σ) (seqId : Int) (method : String)
    (args : TStruct σ) (s : σ) : Option TError × σ × List Event :=
  match oprot.WriteMessageBegin method CALL seqId s with
  | (some err, s1) => (some err, s1, [Event.WriteMessageBegin method CALL seqId])
  | (none, s1) =>
    match args.Write oprot s1 with
    | (some err, s2) => (some err, s2, [Event.WriteMessageBegin method CALL seqId, Event.ArgsWrite])
    | (none, s2) =>
      match oprot.WriteMessageEnd s2 with
      | (some err, s3) =>
        (some err, s3,
          [Event.WriteMessageBegin method CALL seqId, Event.ArgsWrite, Event.WriteMessageEnd])
      | (none, s3) =>
        let r := oprot.Flush ctx s3
        (r.1, r.2,
          [Event.WriteMessageBegin method CALL seqId, Event.ArgsWrite, Event.WriteMessageEnd,
            Event.Flush])

/-- `TStandardClient.Send`: the returned error (`none` for nil), the world state
afterwards, and the operations performed. The receiver is not used by the body. -/
def Send {σ : Type} (ctx : Context) (oprot : TProtocol σ) (seqId : Int) (method : String)
    (args : TStruct σ) (s : σ) : Option TError × σ × List Event :=
  let h := sendHeaders ctx oprot s
  let r := sendMessage ctx oprot seqId method args h.1
  (r.1, r.2.1, h.2 ++ r.2.2)

/-- The four operations of a complete message, in order. -/
def sendOps (method : String) (seqId : Int) : List Event :=
  [Event.WriteMessageBegin method CALL seqId, Event.ArgsWrite, Event.WriteMessageEnd, Event.Flush]

/-! ## `Recv` -/

/-- `TStandardClient.Recv`: the returned error (`none` for nil), the world state
afterwards, and the operations performed. The receiver is not used by the body. -/
def Recv {σ : Type} (iprot : TProtocol σ) (seqId : Int) (method : String) (result : TStruct σ)
    (s : σ) : Option TError × σ × List Event :=
  match iprot.ReadMessageBegin s with
  | (.error err, s1) => (some err, s1, [Event.ReadMessageBegin])
  | (.ok (rMethod, rTypeId, rSeqId), s1) =>
    if method ≠ rMethod then
      (some (NewTApplicationException WRONG_METHOD_NAME
          (method ++ ": wrong method name, " ++ rMethod)),
        s1, [Event.ReadMessageBegin])
    else if seqId ≠ rSeqId then
      (some (NewTApplicationException BAD_SEQUENCE_ID
          (method ++ ": out of order sequence response")),
        s1, [Event.ReadMessageBegin])
    else if rTypeId = EXCEPTION then
      match iprot.ReadApplicationException s1 with
      | (.error err, s2) => (some err, s2, [Event.ReadMessageBegin, Event.ExceptionRead])
      | (.ok (typeId, message), s2) =>
        match iprot.ReadMessageEnd s2 with
        | (some err, s3) =>
          (some err, s3, [Event.ReadMessageBegin, Event.ExceptionRead, Event.ReadMessageEnd])
        | (none, s3) =>
          (some (TError.applicationException typeId message), s3,
            [Event.ReadMessageBegin, Event.ExceptionRead, Event.ReadMessageEnd])
    else if rTypeId ≠ REPLY then
      (some (NewTApplicationException INVALID_MESSAGE_TYPE_EXCEPTION
          (method ++ ": invalid message type")),
        s1, [Event.ReadMessageBegin])
    else
      match result.Read iprot s1 with
      | (some err, s2) => (some err, s2, [Event.ReadMessageBegin, Event.ResultRead])
      | (none, s2) =>
        let r := iprot.ReadMessageEnd s2
        (r.1, r.2, [Event.ReadMessageBegin, Event.ResultRead, Event.ReadMessageEnd])

/-! ## `Call` -/

/-- The fields of `TStandardClient` (the mutex guards `seqId` and has no sequential
content). -/
structure TStandardClient (σ : Type) where
  seqId : Int
  iprot : TProtocol σ
  oprot : TProtocol σ

/-- `NewTStandardClient`: the counter starts at the zero value. -/
def NewTStandardClient {σ : Type} (inputProtocol outputProtocol : TProtocol σ) :
    TStandardClient σ :=
  { seqId := 0, iprot := inputProtocol, oprot := outputProtocol }

/-- What one `Call` leaves behind: the returned error (`none` for nil), the client, the
world state, and the operations performed. -/
structure CallResult (σ : Type) where
  err : Option TError
  client : TStandardClient σ
  state : σ
  events : List Event

/-- The line printed by the deferred function of `Call`; `now` is the formatted
`time.Now()`. -/
def traceLine (now method req res : String) : String :=
  now ++ "--[" ++ method ++ "] req: " ++ req ++ ", res: " ++ res ++ " "

/-- The deferred function of `Call`: the operations it adds when the call returns. -/
def deferred (Debug : Bool) (now method req res : String) : List Event :=
  if Debug then [Event.Println (traceLine now method req res)] else []

/-- The request snapshot of `Call` (lines 95, 104-111). -/
def reqSnapshot {σ : Type} (Debug : Bool) (args : TStruct σ) (s : σ) : String :=
  if Debug then
    match args.Marshal s with
    | .ok _req => _req
    | .error _ => "Not Request Body."
  else ""

/-- The response snapshot of `Call` (lines 96, 123-130), given the error `Recv` returned
and the world state after it. -/
def resSnapshot {σ : Type} (Debug : Bool) (err : Option TError) (result : TStruct σ) (s : σ) :
    String :=
  if Debug && err.isNone then
    match result.Marshal s with
    | .ok _res => _res
    | .error _ => "Not Response body."
  else ""

/-- `TStandardClient.Call`. `Debug` is the package variable, `now` the formatted time the
deferred function reads, `result = none` the nil result of a one-way call. -/
def Call {σ : Type} (Debug : Bool) (now : String) (p : TStandardClient σ) (ctx : Context)
    (method : String) (args : TStruct σ) (result : Option (TStruct σ)) (s : σ) : CallResult σ :=
  let seqId := wrap32 (p.seqId + 1)
  let p1 : TStandardClient σ := { p with seqId := seqId }
  let req := reqSnapshot Debug args s
  match Send ctx p1.oprot seqId method args s with
  | (some err, s1, evS) =>
    { err := some err, client := p1, state := s1, events := evS ++ deferred Debug now method req "" }
  | (none, s1, evS) =>
    match result with
    | none =>
      { err := none, client := p1, state := s1, events := evS ++ deferred Debug now method req "" }
    | some result =>
      match Recv p1.iprot seqId method result s1 with
      | (err, s2, evR) =>
        let res := resSnapshot Debug err result s2
        { err := err, client := p1, state := s2,
          events := evS ++ evR ++ deferred Debug now method req res }

/-! ## Observations on the recorded operations -/

/-- The message kinds passed to `WriteMessageBegin`, in order. -/
def writtenKinds : List Event → List TMessageType
  | [] => []
  | .WriteMessageBegin _ typeId _ :: es => typeId :: writtenKinds es
  | _ :: es => writtenKinds es

/-- The diagnostic lines printed, in order. -/
def printed : List Event → List String
  | [] => []
  | .Println line :: es => line :: printed es
  | _ :: es => printed es

/-- Whether the operation is performed on one of the two channels. -/
def Event.isChannelOp (e : Event) : Bool := e.onInput || e.onOutput

/-! ## The header step as the specification words it -/

/-- The staging of one key as the specification words it: the key is set to its current
value when the lookup finds one, and skipped otherwise. -/
def stageKeySpec {σ : Type} (ctx : Context) (headerProt : THeaderProtocol σ) (s : σ)
    (key : String) : σ :=
  match GetHeader ctx key with
  | some value => headerProt.SetWriteHeader key value s
  | none => s

/-- The staged state as the specification words it: clear all staged headers, then
visit the keys of the write-header list in order. -/
def stageHeadersSpec {σ : Type} (ctx : Context) (headerProt : THeaderProtocol σ) (s : σ) : σ :=
  (GetWriteHeaderList ctx).foldl (stageKeySpec ctx headerProt) (headerProt.ClearWriteHeaders s)

/-- The header operations as the specification words them: one clearing, then one
setting for each key of the write-header list, in order, whose lookup finds a value. -/
def stageEventsSpec (ctx : Context) : List Event :=
  Event.ClearWriteHeaders ::
    (GetWriteHeaderList ctx).filterMap
      (fun key => (GetHeader ctx key).map (fun value => Event.SetWriteHeader key value))

/-! ## Sequential calls on one client -/

/-- The arguments of one `Call`, with the value of `Debug` and the formatted time at that
call. -/
structure CallArgs (σ : Type) where
  Debug : Bool
  now : String
  ctx : Context
  method : String
  args : TStruct σ
  result : Option (TStruct σ)

/-- Calls made one after the other on the same client: each starts from the client and
the world the previous one left. The outcome of every call is listed, in order. -/
def runCalls {σ : Type} (p : TStandardClient σ) (s : σ) : List (CallArgs σ) → List (CallResult σ)
  | [] => []
  | c :: cs =>
    let r := Call c.Debug c.now p c.ctx c.method c.args c.result s
    r :: runCalls r.client r.state cs

/-! ## A concrete channel for the examples -/

/-- World state of the example channel: the envelope last written, and the number of
operations served so far. -/
structure Wire where
  name : String
  seq : Int
  count : Nat
  deriving DecidableEq, Repr

/-- Behaviour of the example peer: how it renames the method, the kind it answers with,
the offset it adds to the sequence id, and the outcome of the flush. -/
structure Peer where
  rename : String → String
  kind : TMessageType
  shift : Int
  flush : Option TError

/-- A channel whose peer answers the last written envelope as `peer` prescribes, whose
remote exception decodes to kind 6 and message "boom", and which has no header
capability. -/
def echoProtocol (peer : Peer) : TProtocol Wire :=
  { WriteMessageBegin := fun name _ seqId w =>
      (none, { name := name, seq := seqId, count := w.count + 1 })
    WriteMessageEnd := fun w => (none, { w with count := w.count + 1 })
    Flush := fun _ w => (peer.flush, { w with count := w.count + 1 })
    ReadMessageBegin := fun w =>
      (.ok (peer.rename w.name, peer.kind, w.seq + peer.shift), { w with count := w.count + 1 })
    ReadMessageEnd := fun w => (none, { w with count := w.count + 1 })
    ReadApplicationException := fun w => (.ok (6, "boom"), { w with count := w.count + 1 })
    asHeader := none }

/-- The example channel with the header capability added: each header operation is
counted like any other operation. -/
def headerEchoProtocol (peer : Peer) : TProtocol Wire :=
  { echoProtocol peer with
    asHeader := some
      { ClearWriteHeaders := fun w => { w with count := w.count + 1 }
        SetWriteHeader := fun _ _ w => { w with count := w.count + 1 } } }

/-- An empty payload: reading and writing it succeed, its snapshot is the empty object. -/
def emptyStruct : TStruct Wire :=
  { Write := fun _ w => (none, { w with count := w.count + 1 })
    Read := fun _ w => (none, { w with count := w.count + 1 })
    Marshal := fun _ => .ok "\x7b\x7d" }

/-- A context without headers. -/
def emptyContext : Context := { writeHeaderList := [], header := fun _ => none }

/-- The world before anything was written. -/
def wire0 : Wire := { name := "", seq := 0, count := 0 }

/-- The world after the request `(name, seq)` went out. -/
def wireSent (name : String) (seq : Int) : Wire := { name := name, seq := seq, count := 4 }

/-- A channel whose three read operations answer as scripted, whatever was written; every
operation is counted. -/
def scriptedProtocol (envelope : Except TError (String × TMessageType × Int))
    (exception : Except TError (Int × String)) (messageEnd : Option TError) : TProtocol Wire :=
  { WriteMessageBegin := fun name _ seqId w =>
      (none, { name := name, seq := seqId, count := w.count + 1 })
    WriteMessageEnd := fun w => (none, { w with count := w.count + 1 })
    Flush := fun _ w => (none, { w with count := w.count + 1 })
    ReadMessageBegin := fun w => (envelope, { w with count := w.count + 1 })
    ReadMessageEnd := fun w => (messageEnd, { w with count := w.count + 1 })
    ReadApplicationException := fun w => (exception, { w with count := w.count + 1 })
    asHeader := none }

/-- A payload that cannot be written and has no JSON encoding; reading it succeeds. -/
def brokenStruct : TStruct Wire :=
  { Write := fun _ w => (some (TError.other "write"), { w with count := w.count + 1 })
    Read := fun _ w => (none, { w with count := w.count + 1 })
    Marshal := fun _ => .error (TError.other "json") }

/-- A payload that is written and read without error but has no JSON encoding. -/
def unencodableStruct : TStruct Wire :=
  { Write := fun _ w => (none, { w with count := w.count + 1 })
    Read := fun _ w => (none, { w with count := w.count + 1 })
    Marshal := fun _ => .error (TError.other "json") }

/-- Modelled from the spec: the staged write headers of a header-capable channel
(`THeaderProtocol` is declared outside `client.go`), as a list of key and value pairs:
`ClearWriteHeaders` drops every staged header, `SetWriteHeader` sets one key to a value. -/
def headerStore : THeaderProtocol (List (String × String)) :=
  { ClearWriteHeaders := fun _ => []
    SetWriteHeader := fun key value staged =>
      staged.filter (fun kv => kv.1 != key) ++ [(key, value)] }

/-- A header-capable channel whose world is its staged write headers; every message
operation succeeds and leaves them alone. -/
def headerStoreProtocol : TProtocol (List (String × String)) :=
  { WriteMessageBegin := fun _ _ _ staged => (none, staged)
    WriteMessageEnd := fun staged => (none, staged)
    Flush := fun _ staged => (none, staged)
    ReadMessageBegin := fun staged => (.ok ("", REPLY, 0), staged)
    ReadMessageEnd := fun staged => (none, staged)
    ReadApplicationException := fun staged => (.ok (0, ""), staged)
    asHeader := some headerStore }

/-- A payload over the header world: reading and writing it succeed. -/
def headerStruct : TStruct (List (String × String)) :=
  { Write := fun _ staged => (none, staged)
    Read := fun _ staged => (none, staged)
    Marshal := fun _ => .ok "\x7b\x7d" }

/-- A context that declares the keys "a", "b", "a" and knows a value for "a" only. -/
def sampleContext : Context :=
  { writeHeaderList := ["a", "b", "a"]
    header := fun key => if key = "a" then some "1" else none }

end Thrift

namespace Thrift

/-! ## Auxiliary facts -/

theorem isHeaderOp_onInput (e : Event) (h : e.isHeaderOp = true) : e.onInput = false := by
  cases e <;> simp_all [Event.isHeaderOp, Event.onInput]

theorem isHeaderOp_onOutput (e : Event) (h : e.isHeaderOp = true) : e.onOutput = true := by
  cases e <;> simp_all [Event.isHeaderOp, Event.onOutput]

theorem setWriteHeaders_isHeaderOp {σ : Type} (ctx : Context) (headerProt : THeaderProtocol σ)
    (keys : List String) (s : σ) :
    ∀ e ∈ (setWriteHeaders ctx headerProt keys s).2, e.isHeaderOp = true := by
  induction keys generalizing s with
  | nil => simp [setWriteHeaders]
  | cons key keys ih =>
    unfold setWriteHeaders
    cases GetHeader ctx key with
    | none => exact ih s
    | some value =>
      intro e he
      simp only [List.mem_cons] at he
      rcases he with rfl | he
      · rfl
      · exact ih _ e he

theorem sendHeaders_isHeaderOp {σ : Type} (ctx : Context) (oprot : TProtocol σ) (s : σ) :
    ∀ e ∈ (sendHeaders ctx oprot s).2, e.isHeaderOp = true := by
  unfold sendHeaders
  cases oprot.asHeader with
  | none => simp
  | some headerProt =>
    intro e he
    simp only [List.mem_cons] at he
    rcases he with rfl | he
    · rfl
    · exact setWriteHeaders_isHeaderOp ctx headerProt _ _ e he

theorem sendHeaders_none {σ : Type} (ctx : Context) (oprot : TProtocol σ) (s : σ)
    (h : oprot.asHeader = none) : sendHeaders ctx oprot s = (s, []) := by
  simp [sendHeaders, h]

/-- The operations of the message part of `Send` are the first one, two, three or four
of `sendOps`, and nil is returned only in the last case. -/
theorem sendMessage_events {σ : Type} (ctx : Context) (oprot : TProtocol σ) (seqId : Int)
    (method : String) (args : TStruct σ) (s : σ) :
    ((sendMessage ctx oprot seqId method args s).2.2 = (sendOps method seqId).take 1
        ∧ (sendMessage ctx oprot seqId method args s).1 ≠ none)
      ∨ ((sendMessage ctx oprot seqId method args s).2.2 = (sendOps method seqId).take 2
        ∧ (sendMessage ctx oprot seqId method args s).1 ≠ none)
      ∨ ((sendMessage ctx oprot seqId method args s).2.2 = (sendOps method seqId).take 3
        ∧ (sendMessage ctx oprot seqId method args s).1 ≠ none)
      ∨ (sendMessage ctx oprot seqId method args s).2.2 = sendOps method seqId := by
  rcases h1 : oprot.WriteMessageBegin method CALL seqId s with ⟨_ | e1, s1⟩
  · rcases h2 : args.Write oprot s1 with ⟨_ | e2, s2⟩
    · rcases h3 : oprot.WriteMessageEnd s2 with ⟨_ | e3, s3⟩
      · simp [sendMessage, h1, h2, h3, sendOps]
      · simp [sendMessage, h1, h2, h3, sendOps]
    · simp [sendMessage, h1, h2, sendOps]
  · simp [sendMessage, h1, sendOps]

theorem sendMessage_onInput {σ : Type} (ctx : Context) (oprot : TProtocol σ) (seqId : Int)
    (method : String) (args : TStruct σ) (s : σ) :
    ∀ e ∈ (sendMessage ctx oprot seqId method args s).2.2, e.onInput = false := by
  rcases sendMessage_events ctx oprot seqId method args s with h | h | h | h
  · simp [h.1, sendOps, Event.onInput]
  · simp [h.1, sendOps, Event.onInput]
  · simp [h.1, sendOps, Event.onInput]
  · simp [h, sendOps, Event.onInput]

theorem Send_onInput {σ : Type} (ctx : Context) (oprot : TProtocol σ) (seqId : Int)
    (method : String) (args : TStruct σ) (s : σ) :
    ∀ e ∈ (Send ctx oprot seqId method args s).2.2, e.onInput = false := by
  intro e he
  simp only [Send, List.mem_append] at he
  rcases he with he | he
  · exact isHeaderOp_onInput e (sendHeaders_isHeaderOp ctx oprot s e he)
  · exact sendMessage_onInput ctx oprot seqId method args _ e he

theorem Recv_onOutput {σ : Type} (iprot : TProtocol σ) (seqId : Int) (method : String)
    (result : TStruct σ) (s : σ) :
    ∀ e ∈ (Recv iprot seqId method result s).2.2, e.onOutput = false := by
  unfold Recv
  intro e
  split
  · simp; rintro rfl; rfl
  · split_ifs
    · simp; rintro rfl; rfl
    · simp; rintro rfl; rfl
    · split
      · simp; rintro (rfl | rfl) <;> rfl
      · split
        · simp; rintro (rfl | rfl | rfl) <;> rfl
        · simp; rintro (rfl | rfl | rfl) <;> rfl
    · simp; rintro rfl; rfl
    · split
      · simp; rintro (rfl | rfl) <;> rfl
      · simp; rintro (rfl | rfl | rfl) <;> rfl

theorem deferred_onInput (Debug : Bool) (now method req res : String) :
    ∀ e ∈ deferred Debug now method req res, e.onInput = false := by
  unfold deferred
  split_ifs <;> simp [Event.onInput]

theorem deferred_onOutput (Debug : Bool) (now method req res : String) :
    ∀ e ∈ deferred Debug now method req res, e.onOutput = false := by
  unfold deferred
  split_ifs <;> simp [Event.onOutput]

theorem writtenSeqIds_append (xs ys : List Event) :
    writtenSeqIds (xs ++ ys) = writtenSeqIds xs ++ writtenSeqIds ys := by
  induction xs with
  | nil => simp [writtenSeqIds]
  | cons e xs ih => cases e <;> simp [writtenSeqIds, ih]

theorem writtenSeqIds_of_isHeaderOp (xs : List Event) (h : ∀ e ∈ xs, e.isHeaderOp = true) :
    writtenSeqIds xs = [] := by
  induction xs with
  | nil => simp [writtenSeqIds]
  | cons e xs ih =>
    have he := h e (List.mem_cons_self e xs)
    have hxs := ih (fun x hx => h x (List.mem_cons_of_mem e hx))
    cases e <;> simp_all [writtenSeqIds, Event.isHeaderOp]

theorem writtenSeqIds_of_not_onOutput (xs : List Event) (h : ∀ e ∈ xs, e.onOutput = false) :
    writtenSeqIds xs = [] := by
  induction xs with
  | nil => simp [writtenSeqIds]
  | cons e xs ih =>
    have he := h e (List.mem_cons_self e xs)
    have hxs := ih (fun x hx => h x (List.mem_cons_of_mem e hx))
    cases e <;> simp_all [writtenSeqIds, Event.onOutput]

theorem writtenSeqIds_sendMessage {σ : Type} (ctx : Context) (oprot : TProtocol σ) (seqId : Int)
    (method : String) (args : TStruct σ) (s : σ) :
    writtenSeqIds (sendMessage ctx oprot seqId method args s).2.2 = [seqId] := by
  rcases sendMessage_events ctx oprot seqId method args s with h | h | h | h
  · simp [h.1, sendOps, writtenSeqIds]
  · simp [h.1, sendOps, writtenSeqIds]
  · simp [h.1, sendOps, writtenSeqIds]
  · simp [h, sendOps, writtenSeqIds]

theorem writtenSeqIds_Send {σ : Type} (ctx : Context) (oprot : TProtocol σ) (seqId : Int)
    (method : String) (args : TStruct σ) (s : σ) :
    writtenSeqIds (Send ctx oprot seqId method args s).2.2 = [seqId] := by
  simp only [Send, writtenSeqIds_append, writtenSeqIds_sendMessage,
    writtenSeqIds_of_isHeaderOp _ (sendHeaders_isHeaderOp ctx oprot s), List.nil_append]

theorem Call_events {σ : Type} (Debug : Bool) (now : String) (p : TStandardClient σ)
    (ctx : Context) (method : String) (args : TStruct σ) (result : Option (TStruct σ)) (s : σ) :
    ∃ rest, (Call Debug now p ctx method args result s).events
        = (Send ctx p.oprot (wrap32 (p.seqId + 1)) method args s).2.2 ++ rest
      ∧ ∀ e ∈ rest, e.onOutput = false := by
  rcases h : Send ctx p.oprot (wrap32 (p.seqId + 1)) method args s with ⟨_ | err, s1, evS⟩
  · cases result with
    | none =>
      exact ⟨deferred Debug now method (reqSnapshot Debug args s) "", by simp [Call, h],
        deferred_onOutput _ _ _ _ _⟩
    | some result =>
      refine ⟨(Recv p.iprot (wrap32 (p.seqId + 1)) method result s1).2.2
          ++ deferred Debug now method (reqSnapshot Debug args s)
            (resSnapshot Debug (Recv p.iprot (wrap32 (p.seqId + 1)) method result s1).1 result
              (Recv p.iprot (wrap32 (p.seqId + 1)) method result s1).2.1),
        by simp [Call, h], ?_⟩
      intro e he
      simp only [List.mem_append] at he
      rcases he with he | he
      · exact Recv_onOutput _ _ _ _ _ e he
      · exact deferred_onOutput _ _ _ _ _ e he
  · exact ⟨deferred Debug now method (reqSnapshot Debug args s) "", by simp [Call, h],
      deferred_onOutput _ _ _ _ _⟩

theorem writtenSeqIds_Call {σ : Type} (Debug : Bool) (now : String) (p : TStandardClient σ)
    (ctx : Context) (method : String) (args : TStruct σ) (result : Option (TStruct σ)) (s : σ) :
    writtenSeqIds (Call Debug now p ctx method args result s).events
      = [wrap32 (p.seqId + 1)] := by
  obtain ⟨rest, hev, hrest⟩ := Call_events Debug now p ctx method args result s
  rw [hev, writtenSeqIds_append, writtenSeqIds_Send, writtenSeqIds_of_not_onOutput rest hrest]
  rfl

theorem Call_client_seqId {σ : Type} (Debug : Bool) (now : String) (p : TStandardClient σ)
    (ctx : Context) (method : String) (args : TStruct σ) (result : Option (TStruct σ)) (s : σ) :
    (Call Debug now p ctx method args result s).client.seqId = wrap32 (p.seqId + 1) := by
  rcases h : Send ctx p.oprot (wrap32 (p.seqId + 1)) method args s with ⟨_ | err, s1, evS⟩
  · cases result <;> simp [Call, h]
  · simp [Call, h]

theorem wrap32_range (x : Int) : -2 ^ 31 ≤ wrap32 x ∧ wrap32 x < 2 ^ 31 := by
  unfold wrap32
  constructor <;> omega

theorem wrap32_of_range (x : Int) (hlo : -2 ^ 31 ≤ x) (hhi : x < 2 ^ 31) : wrap32 x = x := by
  unfold wrap32
  omega

theorem wrap32_emod (x : Int) : wrap32 x % 2 ^ 32 = x % 2 ^ 32 := by
  unfold wrap32
  omega

theorem wrap32_succ_max : wrap32 ((2 ^ 31 - 1) + 1) = -2 ^ 31 := by
  decide

theorem sendMessage_onOutput {σ : Type} (ctx : Context) (oprot : TProtocol σ) (seqId : Int)
    (method : String) (args : TStruct σ) (s : σ) :
    ∀ e ∈ (sendMessage ctx oprot seqId method args s).2.2, e.onOutput = true := by
  rcases sendMessage_events ctx oprot seqId method args s with h | h | h | h
  · simp [h.1, sendOps, Event.onOutput]
  · simp [h.1, sendOps, Event.onOutput]
  · simp [h.1, sendOps, Event.onOutput]
  · simp [h, sendOps, Event.onOutput]

theorem Send_onOutput {σ : Type} (ctx : Context) (oprot : TProtocol σ) (seqId : Int)
    (method : String) (args : TStruct σ) (s : σ) :
    ∀ e ∈ (Send ctx oprot seqId method args s).2.2, e.onOutput = true := by
  intro e he
  simp only [Send, List.mem_append] at he
  rcases he with he | he
  · exact isHeaderOp_onOutput e (sendHeaders_isHeaderOp ctx oprot s e he)
  · exact sendMessage_onOutput ctx oprot seqId method args _ e he

theorem Recv_onInput {σ : Type} (iprot : TProtocol σ) (seqId : Int) (method : String)
    (result : TStruct σ) (s : σ) :
    ∀ e ∈ (Recv iprot seqId method result s).2.2, e.onInput = true := by
  unfold Recv
  intro e
  split
  · simp; rintro rfl; rfl
  · split_ifs
    · simp; rintro rfl; rfl
    · simp; rintro rfl; rfl
    · split
      · simp; rintro (rfl | rfl) <;> rfl
      · split
        · simp; rintro (rfl | rfl | rfl) <;> rfl
        · simp; rintro (rfl | rfl | rfl) <;> rfl
    · simp; rintro rfl; rfl
    · split
      · simp; rintro (rfl | rfl) <;> rfl
      · simp; rintro (rfl | rfl | rfl) <;> rfl

theorem printed_append (xs ys : List Event) : printed (xs ++ ys) = printed xs ++ printed ys := by
  induction xs with
  | nil => simp [printed]
  | cons e xs ih => cases e <;> simp [printed, ih]

theorem printed_of_isChannelOp (xs : List Event) (h : ∀ e ∈ xs, e.isChannelOp = true) :
    printed xs = [] := by
  induction xs with
  | nil => simp [printed]
  | cons e xs ih =>
    have he := h e (List.mem_cons_self e xs)
    have hxs := ih (fun x hx => h x (List.mem_cons_of_mem e hx))
    cases e <;> simp_all [printed, Event.isChannelOp, Event.onInput, Event.onOutput]

theorem printed_Send {σ : Type} (ctx : Context) (oprot : TProtocol σ) (seqId : Int)
    (method : String) (args : TStruct σ) (s : σ) :
    printed (Send ctx oprot seqId method args s).2.2 = [] :=
  printed_of_isChannelOp _ (fun e he => by
    simp [Event.isChannelOp, Send_onOutput ctx oprot seqId method args s e he])

theorem printed_Recv {σ : Type} (iprot : TProtocol σ) (seqId : Int) (method : String)
    (result : TStruct σ) (s : σ) :
    printed (Recv iprot seqId method result s).2.2 = [] :=
  printed_of_isChannelOp _ (fun e he => by
    simp [Event.isChannelOp, Recv_onInput iprot seqId method result s e he])

theorem printed_deferred (Debug : Bool) (now method req res : String) :
    printed (deferred Debug now method req res)
      = if Debug then [traceLine now method req res] else [] := by
  cases Debug <;> simp [deferred, printed]

theorem filter_isChannelOp_deferred (Debug : Bool) (now method req res : String) :
    (deferred Debug now method req res).filter Event.isChannelOp = [] := by
  cases Debug <;> simp [deferred, Event.isChannelOp, Event.onInput, Event.onOutput]

theorem writtenKinds_append (xs ys : List Event) :
    writtenKinds (xs ++ ys) = writtenKinds xs ++ writtenKinds ys := by
  induction xs with
  | nil => simp [writtenKinds]
  | cons e xs ih => cases e <;> simp [writtenKinds, ih]

theorem writtenKinds_of_isHeaderOp (xs : List Event) (h : ∀ e ∈ xs, e.isHeaderOp = true) :
    writtenKinds xs = [] := by
  induction xs with
  | nil => simp [writtenKinds]
  | cons e xs ih =>
    have he := h e (List.mem_cons_self e xs)
    have hxs := ih (fun x hx => h x (List.mem_cons_of_mem e hx))
    cases e <;> simp_all [writtenKinds, Event.isHeaderOp]

theorem writtenKinds_of_not_onOutput (xs : List Event) (h : ∀ e ∈ xs, e.onOutput = false) :
    writtenKinds xs = [] := by
  induction xs with
  | nil => simp [writtenKinds]
  | cons e xs ih =>
    have he := h e (List.mem_cons_self e xs)
    have hxs := ih (fun x hx => h x (List.mem_cons_of_mem e hx))
    cases e <;> simp_all [writtenKinds, Event.onOutput]

theorem writtenKinds_Send {σ : Type} (ctx : Context) (oprot : TProtocol σ) (seqId : Int)
    (method : String) (args : TStruct σ) (s : σ) :
    writtenKinds (Send ctx oprot seqId method args s).2.2 = [CALL] := by
  have hm : writtenKinds (sendMessage ctx oprot seqId method args (sendHeaders ctx oprot s).1).2.2
      = [CALL] := by
    rcases sendMessage_events ctx oprot seqId method args (sendHeaders ctx oprot s).1
      with h | h | h | h
    · simp [h.1, sendOps, writtenKinds]
    · simp [h.1, sendOps, writtenKinds]
    · simp [h.1, sendOps, writtenKinds]
    · simp [h, sendOps, writtenKinds]
  simp only [Send, writtenKinds_append, hm,
    writtenKinds_of_isHeaderOp _ (sendHeaders_isHeaderOp ctx oprot s), List.nil_append]

theorem mem_writtenKinds (xs : List Event) (name : String) (typeId : TMessageType) (seqId : Int)
    (h : Event.WriteMessageBegin name typeId seqId ∈ xs) : typeId ∈ writtenKinds xs := by
  induction xs with
  | nil => simp at h
  | cons e xs ih =>
    simp only [List.mem_cons] at h
    rcases h with rfl | h
    · simp [writtenKinds]
    · have := ih h
      cases e <;> simp [writtenKinds, this]

theorem setWriteHeaders_spec {σ : Type} (ctx : Context) (headerProt : THeaderProtocol σ)
    (keys : List String) (s : σ) :
    setWriteHeaders ctx headerProt keys s
      = (keys.foldl (stageKeySpec ctx headerProt) s,
          keys.filterMap
            (fun key => (GetHeader ctx key).map (fun value => Event.SetWriteHeader key value))) := by
  induction keys generalizing s with
  | nil => simp [setWriteHeaders]
  | cons key keys ih =>
    unfold setWriteHeaders
    cases h : GetHeader ctx key with
    | none => simp [ih, stageKeySpec, h]
    | some value => simp [ih, stageKeySpec, h]

theorem wrap32_wrap32_succ (x : Int) : wrap32 (wrap32 x + 1) = wrap32 (x + 1) := by
  unfold wrap32
  omega

theorem writtenKinds_Call {σ : Type} (Debug : Bool) (now : String) (p : TStandardClient σ)
    (ctx : Context) (method : String) (args : TStruct σ) (result : Option (TStruct σ)) (s : σ) :
    writtenKinds (Call Debug now p ctx method args result s).events = [CALL] := by
  obtain ⟨rest, hev, hrest⟩ := Call_events Debug now p ctx method args result s
  rw [hev, writtenKinds_append, writtenKinds_Send, writtenKinds_of_not_onOutput rest hrest]
  rfl

theorem wrap32_wrap32_add (x y : Int) : wrap32 (wrap32 x + y) = wrap32 (x + y) := by
  unfold wrap32
  omega

/-- The call at position `i` of a run that starts with the counter at `c` writes the
sequence id `c + (i + 1)`, wrapped, and leaves the counter there. -/
theorem runCalls_getElem? {σ : Type} (cs : List (CallArgs σ)) :
    ∀ (p : TStandardClient σ) (s : σ) (i : Nat), i < cs.length →
      ((runCalls p s cs).map (fun r => (writtenSeqIds r.events, r.client.seqId)))[i]?
        = some ([wrap32 (p.seqId + (i + 1))], wrap32 (p.seqId + (i + 1))) := by
  induction cs with
  | nil => intro p s i hi; simp at hi
  | cons c cs ih =>
    intro p s i hi
    cases i with
    | zero =>
      simp [runCalls, writtenSeqIds_Call, Call_client_seqId]
    | succ i =>
      have hi' : i < cs.length := by simpa using hi
      have := ih (Call c.Debug c.now p c.ctx c.method c.args c.result s).client
        (Call c.Debug c.now p c.ctx c.method c.args c.result s).state i hi'
      rw [Call_client_seqId, wrap32_wrap32_add] at this
      simp only [runCalls, List.map_cons, List.getElem?_cons_succ]
      rw [this]
      have e : p.seqId + 1 + ((i : Int) + 1) = p.seqId + (((i + 1 : Nat) : Int) + 1) := by
        push_cast
        ring
      rw [e]

/-! ## Receive path -/

/-- C1: when the envelope read by `ReadMessageBegin` names a method other than the
expected one, then whatever its sequence id and kind, `Recv` returns the application
exception WRONG_METHOD_NAME with message "<m>: wrong method name, <rMethod>", leaves the
world as `ReadMessageBegin` left it, and `result.Read` is not among its operations. -/
theorem Recv_wrong_method_name {σ : Type} (iprot : TProtocol σ) (seqId : Int) (m : String)
    (result : TStruct σ) (s s1 : σ) (rMethod : String) (rKind : TMessageType) (rSeqId : Int)
    (hread : iprot.ReadMessageBegin s = (.ok (rMethod, rKind, rSeqId), s1))
    (hne : rMethod ≠ m) :
    (Recv iprot seqId m result s).1
        = some (TError.applicationException WRONG_METHOD_NAME
            (m ++ ": wrong method name, " ++ rMethod))
      ∧ (Recv iprot seqId m result s).2.1 = s1
      ∧ Event.ResultRead ∉ (Recv iprot seqId m result s).2.2 := by
  have hne' : ¬ m = rMethod := fun h => hne h.symm
  simp [Recv, hread, hne', NewTApplicationException]

/-- C1, at a concrete input: the call "ping" with sequence id 7 is answered by
("pong", REPLY, 7). -/
theorem Recv_wrong_method_name_witness :
    (Recv (echoProtocol { rename := fun _ => "pong", kind := REPLY, shift := 0, flush := none })
        7 "ping" emptyStruct (wireSent "ping" 7)).1
        = some (TError.applicationException WRONG_METHOD_NAME
            ("ping" ++ ": wrong method name, " ++ "pong"))
      ∧ (Recv (echoProtocol { rename := fun _ => "pong", kind := REPLY, shift := 0, flush := none })
        7 "ping" emptyStruct (wireSent "ping" 7)).2.1 = { name := "ping", seq := 7, count := 5 }
      ∧ Event.ResultRead ∉
        (Recv (echoProtocol { rename := fun _ => "pong", kind := REPLY, shift := 0, flush := none })
          7 "ping" emptyStruct (wireSent "ping" 7)).2.2 :=
  Recv_wrong_method_name _ 7 "ping" emptyStruct (wireSent "ping" 7)
    { name := "ping", seq := 7, count := 5 } "pong" REPLY 7 (by simp [echoProtocol, wireSent])
    (by decide)

/-- C2: when the envelope read by `ReadMessageBegin` carries the expected method name but
a sequence id other than the expected one, then whatever its kind, `Recv` returns the
application exception BAD_SEQUENCE_ID with message "<method>: out of order sequence
response", leaves the world as `ReadMessageBegin` left it, and neither `result.Read` nor
the decoding of a remote exception is among its operations. -/
theorem Recv_bad_sequence_id {σ : Type} (iprot : TProtocol σ) (seqId : Int) (method : String)
    (result : TStruct σ) (s s1 : σ) (rKind : TMessageType) (rSeqId : Int)
    (hread : iprot.ReadMessageBegin s = (.ok (method, rKind, rSeqId), s1))
    (hne : rSeqId ≠ seqId) :
    (Recv iprot seqId method result s).1
        = some (TError.applicationException BAD_SEQUENCE_ID
            (method ++ ": out of order sequence response"))
      ∧ (Recv iprot seqId method result s).2.1 = s1
      ∧ Event.ResultRead ∉ (Recv iprot seqId method result s).2.2
      ∧ Event.ExceptionRead ∉ (Recv iprot seqId method result s).2.2 := by
  have hne' : ¬ seqId = rSeqId := fun h => hne h.symm
  simp [Recv, hread, hne', NewTApplicationException]

/-- C2, at a concrete input: the call "ping" with sequence id 7 is answered by
("ping", EXCEPTION, 8). -/
theorem Recv_bad_sequence_id_witness :
    (Recv (echoProtocol { rename := id, kind := EXCEPTION, shift := 1, flush := none })
        7 "ping" emptyStruct (wireSent "ping" 7)).1
        = some (TError.applicationException BAD_SEQUENCE_ID
            ("ping" ++ ": out of order sequence response"))
      ∧ (Recv (echoProtocol { rename := id, kind := EXCEPTION, shift := 1, flush := none })
        7 "ping" emptyStruct (wireSent "ping" 7)).2.1 = { name := "ping", seq := 7, count := 5 }
      ∧ Event.ResultRead ∉
        (Recv (echoProtocol { rename := id, kind := EXCEPTION, shift := 1, flush := none })
          7 "ping" emptyStruct (wireSent "ping" 7)).2.2
      ∧ Event.ExceptionRead ∉
        (Recv (echoProtocol { rename := id, kind := EXCEPTION, shift := 1, flush := none })
          7 "ping" emptyStruct (wireSent "ping" 7)).2.2 :=
  Recv_bad_sequence_id _ 7 "ping" emptyStruct (wireSent "ping" 7)
    { name := "ping", seq := 7, count := 5 } EXCEPTION 8 (by simp [echoProtocol, wireSent])
    (by decide)

/-- C3: when the envelope carries the expected method name and sequence id and the kind
EXCEPTION, and the decoding of the remote exception and the following `ReadMessageEnd`
both succeed, `Recv` returns as its error the decoded exception, with the decoded kind
code and message; its operations are `ReadMessageBegin`, the exception decoding and
`ReadMessageEnd`, so `result.Read` is not invoked. -/
theorem Recv_remote_exception {σ : Type} (iprot : TProtocol σ) (seqId : Int) (method : String)
    (result : TStruct σ) (s s1 s2 s3 : σ) (typeId : Int) (message : String)
    (hread : iprot.ReadMessageBegin s = (.ok (method, EXCEPTION, seqId), s1))
    (hexc : iprot.ReadApplicationException s1 = (.ok (typeId, message), s2))
    (hend : iprot.ReadMessageEnd s2 = (none, s3)) :
    Recv iprot seqId method result s
        = (some (TError.applicationException typeId message), s3,
            [Event.ReadMessageBegin, Event.ExceptionRead, Event.ReadMessageEnd])
      ∧ Event.ResultRead ∉ (Recv iprot seqId method result s).2.2 := by
  simp [Recv, hread, hexc, hend]

/-- C3, at a concrete input: the call "fail" with sequence id 7 is answered by
("fail", EXCEPTION, 7) followed by the exception of kind 6 and message "boom". -/
theorem Recv_remote_exception_witness :
    Recv (echoProtocol { rename := id, kind := EXCEPTION, shift := 0, flush := none })
        7 "fail" emptyStruct (wireSent "fail" 7)
        = (some (TError.applicationException 6 "boom"), { name := "fail", seq := 7, count := 7 },
            [Event.ReadMessageBegin, Event.ExceptionRead, Event.ReadMessageEnd])
      ∧ Event.ResultRead ∉
        (Recv (echoProtocol { rename := id, kind := EXCEPTION, shift := 0, flush := none })
          7 "fail" emptyStruct (wireSent "fail" 7)).2.2 :=
  Recv_remote_exception _ 7 "fail" emptyStruct (wireSent "fail" 7)
    { name := "fail", seq := 7, count := 5 } { name := "fail", seq := 7, count := 6 }
    { name := "fail", seq := 7, count := 7 } 6 "boom"
    (by simp [echoProtocol, wireSent]) (by simp [echoProtocol]) (by simp [echoProtocol])

/-- C4: when the envelope carries the expected method name and sequence id and a kind
that is neither REPLY nor EXCEPTION, `Recv` returns the application exception
INVALID_MESSAGE_TYPE_EXCEPTION with message "<method>: invalid message type", leaves the
world as `ReadMessageBegin` left it, and `result.Read` is not among its operations. -/
theorem Recv_invalid_message_type {σ : Type} (iprot : TProtocol σ) (seqId : Int)
    (method : String) (result : TStruct σ) (s s1 : σ) (rKind : TMessageType)
    (hread : iprot.ReadMessageBegin s = (.ok (method, rKind, seqId), s1))
    (hreply : rKind ≠ REPLY) (hexc : rKind ≠ EXCEPTION) :
    (Recv iprot seqId method result s).1
        = some (TError.applicationException INVALID_MESSAGE_TYPE_EXCEPTION
            (method ++ ": invalid message type"))
      ∧ (Recv iprot seqId method result s).2.1 = s1
      ∧ Event.ResultRead ∉ (Recv iprot seqId method result s).2.2 := by
  simp [Recv, hread, hreply, hexc, NewTApplicationException]

/-- C4, at a concrete input: the call "ping" with sequence id 7 is answered by
("ping", ONEWAY, 7). -/
theorem Recv_invalid_message_type_witness :
    (Recv (echoProtocol { rename := id, kind := ONEWAY, shift := 0, flush := none })
        7 "ping" emptyStruct (wireSent "ping" 7)).1
        = some (TError.applicationException INVALID_MESSAGE_TYPE_EXCEPTION
            ("ping" ++ ": invalid message type"))
      ∧ (Recv (echoProtocol { rename := id, kind := ONEWAY, shift := 0, flush := none })
        7 "ping" emptyStruct (wireSent "ping" 7)).2.1 = { name := "ping", seq := 7, count := 5 }
      ∧ Event.ResultRead ∉
        (Recv (echoProtocol { rename := id, kind := ONEWAY, shift := 0, flush := none })
          7 "ping" emptyStruct (wireSent "ping" 7)).2.2 :=
  Recv_invalid_message_type _ 7 "ping" emptyStruct (wireSent "ping" 7)
    { name := "ping", seq := 7, count := 5 } ONEWAY (by simp [echoProtocol, wireSent])
    (by decide) (by decide)

/-- C5: when the envelope carries the expected method name and sequence id and the kind
REPLY, `Recv` invokes `result.Read` right after `ReadMessageBegin`; when `result.Read`
fails, `Recv` returns its error and `ReadMessageEnd` is not invoked; when it succeeds,
`ReadMessageEnd` is invoked next and `Recv` returns what `ReadMessageEnd` returns; so
`Recv` returns success exactly when both succeed. -/
theorem Recv_reply {σ : Type} (iprot : TProtocol σ) (seqId : Int) (method : String)
    (result : TStruct σ) (s s1 : σ)
    (hread : iprot.ReadMessageBegin s = (.ok (method, REPLY, seqId), s1)) :
    (∀ err s2, result.Read iprot s1 = (some err, s2) →
        Recv iprot seqId method result s
          = (some err, s2, [Event.ReadMessageBegin, Event.ResultRead]))
      ∧ (∀ s2, result.Read iprot s1 = (none, s2) →
        Recv iprot seqId method result s
          = ((iprot.ReadMessageEnd s2).1, (iprot.ReadMessageEnd s2).2,
              [Event.ReadMessageBegin, Event.ResultRead, Event.ReadMessageEnd]))
      ∧ ((Recv iprot seqId method result s).1 = none ↔
          (result.Read iprot s1).1 = none
            ∧ (iprot.ReadMessageEnd (result.Read iprot s1).2).1 = none) := by
  have hne : ¬ REPLY = EXCEPTION := by decide
  refine ⟨?_, ?_, ?_⟩
  · intro err s2 h
    simp [Recv, hread, hne, h]
  · intro s2 h
    simp [Recv, hread, hne, h]
  · rcases h : result.Read iprot s1 with ⟨_ | err, s2⟩ <;> simp [Recv, hread, hne, h]

/-- C5, at a concrete input: the call "ping" with sequence id 7 is answered by
("ping", REPLY, 7) and a valid empty result. -/
theorem Recv_reply_witness :
    Recv (echoProtocol { rename := id, kind := REPLY, shift := 0, flush := none })
        7 "ping" emptyStruct (wireSent "ping" 7)
      = (none, { name := "ping", seq := 7, count := 7 },
          [Event.ReadMessageBegin, Event.ResultRead, Event.ReadMessageEnd]) :=
  (Recv_reply (echoProtocol { rename := id, kind := REPLY, shift := 0, flush := none })
    7 "ping" emptyStruct (wireSent "ping" 7) { name := "ping", seq := 7, count := 5 }
    (by simp [echoProtocol, wireSent])).2.1 { name := "ping", seq := 7, count := 6 }
    (by simp [emptyStruct])

/-! ## Call orchestration -/

/-- C6: a `Call` whose result payload is nil returns exactly what `Send` returned (run on
the output channel with the freshly allocated sequence id), leaves the world as `Send`
left it, performs the operations of `Send` followed only by the diagnostic line of the
deferred function, and none of its operations is on the input channel. -/
theorem Call_oneway {σ : Type} (Debug : Bool) (now : String) (p : TStandardClient σ)
    (ctx : Context) (method : String) (args : TStruct σ) (s : σ) :
    (Call Debug now p ctx method args none s).err
        = (Send ctx p.oprot (wrap32 (p.seqId + 1)) method args s).1
      ∧ (Call Debug now p ctx method args none s).state
        = (Send ctx p.oprot (wrap32 (p.seqId + 1)) method args s).2.1
      ∧ (Call Debug now p ctx method args none s).events
        = (Send ctx p.oprot (wrap32 (p.seqId + 1)) method args s).2.2
            ++ deferred Debug now method (reqSnapshot Debug args s) ""
      ∧ ∀ e ∈ (Call Debug now p ctx method args none s).events, e.onInput = false := by
  have hS := Send_onInput ctx p.oprot (wrap32 (p.seqId + 1)) method args s
  have hD := deferred_onInput Debug now method (reqSnapshot Debug args s) ""
  rcases h : Send ctx p.oprot (wrap32 (p.seqId + 1)) method args s with ⟨_ | err, s1, evS⟩
  · rw [h] at hS
    refine ⟨by simp [Call, h], by simp [Call, h], by simp [Call, h], ?_⟩
    intro e he
    simp only [Call, h, List.mem_append] at he
    rcases he with he | he
    · exact hS e he
    · exact hD e he
  · rw [h] at hS
    refine ⟨by simp [Call, h], by simp [Call, h], by simp [Call, h], ?_⟩
    intro e he
    simp only [Call, h, List.mem_append] at he
    rcases he with he | he
    · exact hS e he
    · exact hD e he

/-- C7: when `Send` fails, `Call` returns the error of `Send` unchanged, leaves the world
as `Send` left it and performs no operation on the input channel. In every `Call` the
operations are those of `Send`, none of them on the input channel, followed by operations
none of which is on the output channel; and an operation on the input channel occurs only
when `Send` returned nil with `Flush` as its last operation. -/
theorem Call_send_failure {σ : Type} (Debug : Bool) (now : String) (p : TStandardClient σ)
    (ctx : Context) (method : String) (args : TStruct σ) (result : Option (TStruct σ)) (s : σ) :
    (∀ err, (Send ctx p.oprot (wrap32 (p.seqId + 1)) method args s).1 = some err →
        (Call Debug now p ctx method args result s).err = some err
          ∧ (Call Debug now p ctx method args result s).state
            = (Send ctx p.oprot (wrap32 (p.seqId + 1)) method args s).2.1
          ∧ ∀ e ∈ (Call Debug now p ctx method args result s).events, e.onInput = false)
      ∧ ∃ rest, (Call Debug now p ctx method args result s).events
            = (Send ctx p.oprot (wrap32 (p.seqId + 1)) method args s).2.2 ++ rest
          ∧ (∀ e ∈ (Send ctx p.oprot (wrap32 (p.seqId + 1)) method args s).2.2,
              e.onInput = false)
          ∧ (∀ e ∈ rest, e.onOutput = false)
          ∧ ((∃ e ∈ rest, e.onInput = true) →
              (Send ctx p.oprot (wrap32 (p.seqId + 1)) method args s).1 = none
                ∧ (Send ctx p.oprot (wrap32 (p.seqId + 1)) method args s).2.2.getLast?
                  = some Event.Flush) := by
  have hS := Send_onInput ctx p.oprot (wrap32 (p.seqId + 1)) method args s
  have hlast : (Send ctx p.oprot (wrap32 (p.seqId + 1)) method args s).1 = none →
      (Send ctx p.oprot (wrap32 (p.seqId + 1)) method args s).2.2.getLast?
        = some Event.Flush := by
    intro hnone
    simp only [Send] at hnone ⊢
    rcases sendMessage_events ctx p.oprot (wrap32 (p.seqId + 1)) method args
      (sendHeaders ctx p.oprot s).1 with h | h | h | h
    · exact absurd hnone h.2
    · exact absurd hnone h.2
    · exact absurd hnone h.2
    · rw [h]
      simp [sendOps, List.getLast?_append]
  rcases h : Send ctx p.oprot (wrap32 (p.seqId + 1)) method args s with ⟨_ | err, s1, evS⟩
  · rw [h] at hS hlast
    refine ⟨by simp, ?_⟩
    cases result with
    | none =>
      refine ⟨deferred Debug now method (reqSnapshot Debug args s) "", by simp [Call, h], hS,
        deferred_onOutput _ _ _ _ _, ?_⟩
      rintro ⟨e, he, hin⟩
      rw [deferred_onInput _ _ _ _ _ e he] at hin
      exact absurd hin (by decide)
    | some result =>
      refine ⟨(Recv p.iprot (wrap32 (p.seqId + 1)) method result s1).2.2
          ++ deferred Debug now method (reqSnapshot Debug args s)
            (resSnapshot Debug (Recv p.iprot (wrap32 (p.seqId + 1)) method result s1).1 result
              (Recv p.iprot (wrap32 (p.seqId + 1)) method result s1).2.1),
        by simp [Call, h], hS, ?_, fun _ => ⟨rfl, hlast rfl⟩⟩
      intro e he
      simp only [List.mem_append] at he
      rcases he with he | he
      · exact Recv_onOutput _ _ _ _ _ e he
      · exact deferred_onOutput _ _ _ _ _ e he
  · rw [h] at hS
    refine ⟨?_, deferred Debug now method (reqSnapshot Debug args s) "", by simp [Call, h], hS,
      deferred_onOutput _ _ _ _ _, ?_⟩
    · intro err' herr
      simp only [Option.some.injEq] at herr
      subst herr
      refine ⟨by simp [Call, h], by simp [Call, h], ?_⟩
      intro e he
      simp only [Call, h, List.mem_append] at he
      rcases he with he | he
      · exact hS e he
      · exact deferred_onInput _ _ _ _ _ e he
    · rintro ⟨e, he, hin⟩
      rw [deferred_onInput _ _ _ _ _ e he] at hin
      exact absurd hin (by decide)

/-- C7, at a concrete input: a two-way call "ping" on a fresh client whose output channel
fails to flush. -/
theorem Call_send_failure_witness :
    (Call false ""
        (NewTStandardClient
          (echoProtocol
            { rename := id, kind := REPLY, shift := 0, flush := some (TError.other "flush") })
          (echoProtocol
            { rename := id, kind := REPLY, shift := 0, flush := some (TError.other "flush") }))
        emptyContext "ping" emptyStruct (some emptyStruct) wire0).err
        = some (TError.other "flush")
      ∧ ∀ e ∈ (Call false ""
        (NewTStandardClient
          (echoProtocol
            { rename := id, kind := REPLY, shift := 0, flush := some (TError.other "flush") })
          (echoProtocol
            { rename := id, kind := REPLY, shift := 0, flush := some (TError.other "flush") }))
        emptyContext "ping" emptyStruct (some emptyStruct) wire0).events, e.onInput = false :=
  ⟨((Call_send_failure false "" _ emptyContext "ping" emptyStruct (some emptyStruct) wire0).1
      (TError.other "flush") (by decide)).1,
    ((Call_send_failure false "" _ emptyContext "ping" emptyStruct (some emptyStruct) wire0).1
      (TError.other "flush") (by decide)).2.2⟩

/-- C8: when a `Call` with a result payload returns nil, `Send` returned nil, the only
sequence id passed to `WriteMessageBegin` is the one allocated for the call, and the
envelope that `ReadMessageBegin` returns on the input channel, in the world `Send` left,
carries the called method name, the kind REPLY and that same sequence id. -/
theorem Call_success_envelope {σ : Type} (Debug : Bool) (now : String) (p : TStandardClient σ)
    (ctx : Context) (method : String) (args result : TStruct σ) (s : σ)
    (hok : (Call Debug now p ctx method args (some result) s).err = none) :
    (Send ctx p.oprot (wrap32 (p.seqId + 1)) method args s).1 = none
      ∧ writtenSeqIds (Call Debug now p ctx method args (some result) s).events
        = [wrap32 (p.seqId + 1)]
      ∧ Event.WriteMessageBegin method CALL (wrap32 (p.seqId + 1))
        ∈ (Call Debug now p ctx method args (some result) s).events
      ∧ (p.iprot.ReadMessageBegin
          (Send ctx p.oprot (wrap32 (p.seqId + 1)) method args s).2.1).1
        = .ok (method, REPLY, wrap32 (p.seqId + 1)) := by
  have hw := writtenSeqIds_Call Debug now p ctx method args (some result) s
  have hmsg := sendMessage_events ctx p.oprot (wrap32 (p.seqId + 1)) method args
    (sendHeaders ctx p.oprot s).1
  rcases h : Send ctx p.oprot (wrap32 (p.seqId + 1)) method args s with ⟨_ | err, s1, evS⟩
  · have hmem : Event.WriteMessageBegin method CALL (wrap32 (p.seqId + 1)) ∈ evS := by
      have h1 : (Send ctx p.oprot (wrap32 (p.seqId + 1)) method args s).1 = none := by rw [h]
      have h2 : (Send ctx p.oprot (wrap32 (p.seqId + 1)) method args s).2.2 = evS := by rw [h]
      simp only [Send] at h1 h2
      rw [← h2]
      rcases hmsg with hm | hm | hm | hm
      · exact absurd h1 hm.2
      · exact absurd h1 hm.2
      · exact absurd h1 hm.2
      · rw [hm]; simp [sendOps]
    refine ⟨rfl, hw, ?_, ?_⟩
    · simp only [Call, h, List.mem_append]
      exact Or.inl (Or.inl hmem)
    · simp only [Call, h] at hok
      rcases hr : p.iprot.ReadMessageBegin s1 with ⟨err | ⟨rMethod, rKind, rSeqId⟩, s2⟩
      · simp [Recv, hr] at hok
      · by_cases hm : method = rMethod
        · by_cases hs : wrap32 (p.seqId + 1) = rSeqId
          · by_cases hk : rKind = EXCEPTION
            · rcases hx : p.iprot.ReadApplicationException s2 with ⟨err | ⟨typeId, message⟩, s3⟩
              · simp [Recv, hr, hm, hs, hk, hx] at hok
              · rcases he : p.iprot.ReadMessageEnd s3 with ⟨_ | err, s4⟩
                · simp [Recv, hr, hm, hs, hk, hx, he] at hok
                · simp [Recv, hr, hm, hs, hk, hx, he] at hok
            · by_cases hk2 : rKind = REPLY
              · simp [hm, hs, hk2]
              · simp [Recv, hr, hm, hs, hk, hk2] at hok
          · simp [Recv, hr, hm, hs] at hok
        · simp [Recv, hr, hm] at hok
  · simp [Call, h] at hok

/-- C8, at a concrete input: a two-way call "ping" on a fresh client whose peer echoes
the envelope as a REPLY. -/
theorem Call_success_envelope_witness :
    (Send emptyContext (echoProtocol { rename := id, kind := REPLY, shift := 0, flush := none })
        (wrap32 (0 + 1)) "ping" emptyStruct wire0).1 = none
      ∧ writtenSeqIds (Call false ""
          (NewTStandardClient
            (echoProtocol { rename := id, kind := REPLY, shift := 0, flush := none })
            (echoProtocol { rename := id, kind := REPLY, shift := 0, flush := none }))
          emptyContext "ping" emptyStruct (some emptyStruct) wire0).events = [wrap32 (0 + 1)]
      ∧ Event.WriteMessageBegin "ping" CALL (wrap32 (0 + 1))
        ∈ (Call false ""
          (NewTStandardClient
            (echoProtocol { rename := id, kind := REPLY, shift := 0, flush := none })
            (echoProtocol { rename := id, kind := REPLY, shift := 0, flush := none }))
          emptyContext "ping" emptyStruct (some emptyStruct) wire0).events
      ∧ ((echoProtocol { rename := id, kind := REPLY, shift := 0, flush := none }).ReadMessageBegin
          (Send emptyContext
            (echoProtocol { rename := id, kind := REPLY, shift := 0, flush := none })
            (wrap32 (0 + 1)) "ping" emptyStruct wire0).2.1).1
        = .ok ("ping", REPLY, wrap32 (0 + 1)) :=
  Call_success_envelope false ""
    (NewTStandardClient
      (echoProtocol { rename := id, kind := REPLY, shift := 0, flush := none })
      (echoProtocol { rename := id, kind := REPLY, shift := 0, flush := none }))
    emptyContext "ping" emptyStruct emptyStruct wire0 (by decide)

/-- C9: a `Call` on a client whose counter is `c` passes to `WriteMessageBegin` exactly
one sequence id, `c + 1` reduced to the signed 32-bit range (a value of that range,
congruent to `c + 1` modulo 2^32), and leaves the counter at that value. The next `Call`
on the same client, whatever its arguments, therefore writes an id congruent to the first
id plus 1 modulo 2^32: it is the first id plus 1, strictly greater, unless the first id is
2^31 - 1, in which case it is -2^31. -/
theorem Call_sequence_ids {σ : Type} (Debug : Bool) (now : String) (p : TStandardClient σ)
    (ctx : Context) (method : String) (args : TStruct σ) (result : Option (TStruct σ)) (s : σ)
    (Debug2 : Bool) (now2 : String) (ctx2 : Context) (method2 : String) (args2 : TStruct σ)
    (result2 : Option (TStruct σ)) :
    ∃ id1 id2 : Int,
      id1 = wrap32 (p.seqId + 1)
        ∧ -2 ^ 31 ≤ id1 ∧ id1 < 2 ^ 31 ∧ id1 % 2 ^ 32 = (p.seqId + 1) % 2 ^ 32
        ∧ writtenSeqIds (Call Debug now p ctx method args result s).events = [id1]
        ∧ (Call Debug now p ctx method args result s).client.seqId = id1
        ∧ writtenSeqIds
            (Call Debug2 now2 (Call Debug now p ctx method args result s).client ctx2 method2
              args2 result2 (Call Debug now p ctx method args result s).state).events = [id2]
        ∧ id2 % 2 ^ 32 = (id1 + 1) % 2 ^ 32
        ∧ (if id1 = 2 ^ 31 - 1 then id2 = -2 ^ 31 else id2 = id1 + 1 ∧ id1 < id2) := by
  refine ⟨wrap32 (p.seqId + 1), wrap32 (wrap32 (p.seqId + 1) + 1), rfl,
    (wrap32_range _).1, (wrap32_range _).2, wrap32_emod _, writtenSeqIds_Call _ _ _ _ _ _ _ _,
    Call_client_seqId _ _ _ _ _ _ _ _, ?_, wrap32_emod _, ?_⟩
  · rw [writtenSeqIds_Call, Call_client_seqId]
  · have hr := wrap32_range (p.seqId + 1)
    split_ifs with hmax
    · rw [hmax]
      exact wrap32_succ_max
    · have hlt : wrap32 (p.seqId + 1) + 1 < 2 ^ 31 := by omega
      rw [wrap32_of_range _ (by omega) hlt]
      omega

/-! ## Send path -/

/-- C10, as stated, fails on a channel with the header capability: with an empty header
list, `Send` performs `ClearWriteHeaders` on the output channel before the four message
operations, so its operations are not an initial segment of those four. -/
theorem Send_header_counterexample :
    (Send emptyContext
        (headerEchoProtocol { rename := id, kind := REPLY, shift := 0, flush := none })
        7 "ping" emptyStruct wire0).2.2
        = Event.ClearWriteHeaders :: sendOps "ping" 7
      ∧ ¬ ((Send emptyContext
        (headerEchoProtocol { rename := id, kind := REPLY, shift := 0, flush := none })
        7 "ping" emptyStruct wire0).2.2 <+: sendOps "ping" 7) := by
  decide

/-- C10, amended: `Send` first performs the header step (operations of the header
capability only, none on a channel without it), then the first one, two, three or four of
`WriteMessageBegin(method, CALL, seqId)`, `args.Write`, `WriteMessageEnd`, `Flush`, each
run in the world the previous one left, stopping after the first that returns an error;
`Send` returns that error and the world this operation left, and returns nil exactly when
all four return nil. -/
theorem Send_operations {σ : Type} (ctx : Context) (oprot : TProtocol σ) (seqId : Int)
    (method : String) (args : TStruct σ) (s : σ) (s0 s1 s2 s3 s4 : σ) (evH : List Event)
    (r1 r2 r3 r4 : Option TError)
    (hh : sendHeaders ctx oprot s = (s0, evH))
    (h1 : oprot.WriteMessageBegin method CALL seqId s0 = (r1, s1))
    (h2 : args.Write oprot s1 = (r2, s2))
    (h3 : oprot.WriteMessageEnd s2 = (r3, s3))
    (h4 : oprot.Flush ctx s3 = (r4, s4)) :
    Send ctx oprot seqId method args s
        = (if r1.isSome then (r1, s1, evH ++ (sendOps method seqId).take 1)
          else if r2.isSome then (r2, s2, evH ++ (sendOps method seqId).take 2)
          else if r3.isSome then (r3, s3, evH ++ (sendOps method seqId).take 3)
          else (r4, s4, evH ++ sendOps method seqId))
      ∧ ((Send ctx oprot seqId method args s).1 = none
          ↔ r1 = none ∧ r2 = none ∧ r3 = none ∧ r4 = none)
      ∧ (∀ e ∈ evH, e.isHeaderOp = true)
      ∧ (oprot.asHeader = none → evH = [])
      ∧ ∃ ops, (Send ctx oprot seqId method args s).2.2 = evH ++ ops
          ∧ ops ≠ [] ∧ ops <+: sendOps method seqId := by
  have hev : ∀ e ∈ evH, e.isHeaderOp = true := by
    have := sendHeaders_isHeaderOp ctx oprot s
    rwa [hh] at this
  have hnone : oprot.asHeader = none → evH = [] := by
    intro h
    have := sendHeaders_none ctx oprot s h
    rw [hh] at this
    exact (Prod.mk.inj this).2
  refine ⟨?_, ?_, hev, hnone, ?_⟩
  · cases r1 <;> cases r2 <;> cases r3 <;> simp [Send, sendMessage, hh, h1, h2, h3, h4, sendOps]
  · cases r1 <;> cases r2 <;> cases r3 <;> simp [Send, sendMessage, hh, h1, h2, h3, h4]
  · cases r1 with
    | some e1 =>
      exact ⟨(sendOps method seqId).take 1, by simp [Send, sendMessage, hh, h1, sendOps],
        by simp [sendOps], List.take_prefix _ _⟩
    | none =>
      cases r2 with
      | some e2 =>
        exact ⟨(sendOps method seqId).take 2, by simp [Send, sendMessage, hh, h1, h2, sendOps],
          by simp [sendOps], List.take_prefix _ _⟩
      | none =>
        cases r3 with
        | some e3 =>
          exact ⟨(sendOps method seqId).take 3,
            by simp [Send, sendMessage, hh, h1, h2, h3, sendOps],
            by simp [sendOps], List.take_prefix _ _⟩
        | none =>
          exact ⟨sendOps method seqId, by simp [Send, sendMessage, hh, h1, h2, h3, sendOps],
            by simp [sendOps], List.prefix_refl _⟩

/-- C10, amended, at a concrete input: the request "ping" with sequence id 7 on a channel
with the header capability that fails to flush. -/
theorem Send_operations_witness :
    Send emptyContext
        (headerEchoProtocol
          { rename := id, kind := REPLY, shift := 0, flush := some (TError.other "flush") })
        7 "ping" emptyStruct wire0
      = (some (TError.other "flush"), { name := "ping", seq := 7, count := 5 },
          Event.ClearWriteHeaders :: sendOps "ping" 7) :=
  (Send_operations emptyContext
    (headerEchoProtocol
      { rename := id, kind := REPLY, shift := 0, flush := some (TError.other "flush") })
    7 "ping" emptyStruct wire0
    { name := "", seq := 0, count := 1 } { name := "ping", seq := 7, count := 2 }
    { name := "ping", seq := 7, count := 3 } { name := "ping", seq := 7, count := 4 }
    { name := "ping", seq := 7, count := 5 } [Event.ClearWriteHeaders]
    none none none (some (TError.other "flush"))
    (by decide) (by decide) (by decide) (by decide) (by decide)).1

/-! ## Call orchestration, continued -/

/-- C11: when `Send` returns nil in a `Call` with a result payload, the error `Call`
returns (nil included) is exactly the one returned by `Recv` run on the input channel of
the client with the sequence id allocated for this call and the called method name, in
the world `Send` left; the world `Call` leaves is the one `Recv` left. -/
theorem Call_returns_Recv {σ : Type} (Debug : Bool) (now : String) (p : TStandardClient σ)
    (ctx : Context) (method : String) (args result : TStruct σ) (s : σ)
    (hsend : (Send ctx p.oprot (wrap32 (p.seqId + 1)) method args s).1 = none) :
    (Call Debug now p ctx method args (some result) s).err
        = (Recv p.iprot (wrap32 (p.seqId + 1)) method result
            (Send ctx p.oprot (wrap32 (p.seqId + 1)) method args s).2.1).1
      ∧ (Call Debug now p ctx method args (some result) s).state
        = (Recv p.iprot (wrap32 (p.seqId + 1)) method result
            (Send ctx p.oprot (wrap32 (p.seqId + 1)) method args s).2.1).2.1 := by
  rcases h : Send ctx p.oprot (wrap32 (p.seqId + 1)) method args s with ⟨_ | err, s1, evS⟩
  · simp [Call, h]
  · rw [h] at hsend
    simp at hsend

/-- C11, at a concrete input: a two-way call "fail" on a fresh client whose peer answers
with a remote exception; `Call` returns the error of `Recv`, the decoded exception. -/
theorem Call_returns_Recv_witness :
    (Call true "t"
        (NewTStandardClient
          (echoProtocol { rename := id, kind := EXCEPTION, shift := 0, flush := none })
          (echoProtocol { rename := id, kind := EXCEPTION, shift := 0, flush := none }))
        emptyContext "fail" emptyStruct (some emptyStruct) wire0).err
        = (Recv (echoProtocol { rename := id, kind := EXCEPTION, shift := 0, flush := none })
            (wrap32 (0 + 1)) "fail" emptyStruct
            (Send emptyContext
              (echoProtocol { rename := id, kind := EXCEPTION, shift := 0, flush := none })
              (wrap32 (0 + 1)) "fail" emptyStruct wire0).2.1).1
      ∧ (Recv (echoProtocol { rename := id, kind := EXCEPTION, shift := 0, flush := none })
            (wrap32 (0 + 1)) "fail" emptyStruct
            (Send emptyContext
              (echoProtocol { rename := id, kind := EXCEPTION, shift := 0, flush := none })
              (wrap32 (0 + 1)) "fail" emptyStruct wire0).2.1).1
        = some (TError.applicationException 6 "boom") :=
  ⟨(Call_returns_Recv true "t"
      (NewTStandardClient
        (echoProtocol { rename := id, kind := EXCEPTION, shift := 0, flush := none })
        (echoProtocol { rename := id, kind := EXCEPTION, shift := 0, flush := none }))
      emptyContext "fail" emptyStruct emptyStruct wire0 (by decide)).1, by decide⟩

/-- C12: on an output channel with the header capability, the world after the header
step of `Send` is the one obtained by clearing the staged headers and then visiting the
keys of the write-header list of the context in order, setting a key to its current value
when the lookup finds one and skipping it otherwise; the header operations performed are
that clearing and those settings, and the message part of `Send` runs from that world. On
a channel without the capability the header step performs nothing, `Send` is its message
part run from the initial world, and no header operation is among its operations. -/
theorem Send_header_step {σ : Type} (ctx : Context) (oprot : TProtocol σ) (seqId : Int)
    (method : String) (args : TStruct σ) (s : σ) :
    (∀ headerProt, oprot.asHeader = some headerProt →
        sendHeaders ctx oprot s = (stageHeadersSpec ctx headerProt s, stageEventsSpec ctx)
          ∧ Send ctx oprot seqId method args s
            = ((sendMessage ctx oprot seqId method args (stageHeadersSpec ctx headerProt s)).1,
                (sendMessage ctx oprot seqId method args (stageHeadersSpec ctx headerProt s)).2.1,
                stageEventsSpec ctx
                  ++ (sendMessage ctx oprot seqId method args
                        (stageHeadersSpec ctx headerProt s)).2.2))
      ∧ (oprot.asHeader = none →
        sendHeaders ctx oprot s = (s, [])
          ∧ Send ctx oprot seqId method args s = sendMessage ctx oprot seqId method args s
          ∧ ∀ e ∈ (Send ctx oprot seqId method args s).2.2, e.isHeaderOp = false) := by
  constructor
  · intro headerProt h
    have hstep : sendHeaders ctx oprot s
        = (stageHeadersSpec ctx headerProt s, stageEventsSpec ctx) := by
      simp [sendHeaders, h, setWriteHeaders_spec, stageHeadersSpec, stageEventsSpec]
    exact ⟨hstep, by simp [Send, hstep]⟩
  · intro h
    have hstep := sendHeaders_none ctx oprot s h
    have hsend : Send ctx oprot seqId method args s
        = sendMessage ctx oprot seqId method args s := by
      simp [Send, hstep]
    refine ⟨hstep, hsend, ?_⟩
    intro e he
    rw [hsend] at he
    rcases sendMessage_events ctx oprot seqId method args s with hm | hm | hm | hm
    · rw [hm.1] at he
      simp [sendOps] at he
      rcases he with rfl
      rfl
    · rw [hm.1] at he
      simp [sendOps] at he
      rcases he with rfl | rfl <;> rfl
    · rw [hm.1] at he
      simp [sendOps] at he
      rcases he with rfl | rfl | rfl <;> rfl
    · rw [hm] at he
      simp [sendOps] at he
      rcases he with rfl | rfl | rfl | rfl <;> rfl

/-- C12, at a concrete input: the headers "old" and "a" are staged before; the context
declares the keys "a", "b", "a" and knows the value "1" for "a" only. Afterwards exactly
"a" is staged, with the value "1". -/
theorem Send_header_step_witness :
    sendHeaders sampleContext headerStoreProtocol [("old", "x"), ("a", "0")]
        = (stageHeadersSpec sampleContext headerStore [("old", "x"), ("a", "0")],
            stageEventsSpec sampleContext)
      ∧ stageHeadersSpec sampleContext headerStore [("old", "x"), ("a", "0")] = [("a", "1")]
      ∧ stageEventsSpec sampleContext
        = [Event.ClearWriteHeaders, Event.SetWriteHeader "a" "1", Event.SetWriteHeader "a" "1"] :=
  ⟨((Send_header_step sampleContext headerStoreProtocol 7 "ping" headerStruct
      [("old", "x"), ("a", "0")]).1 headerStore rfl).1, by decide, by decide⟩

/-- C13: tracing does not influence a call. Whatever the value of `Debug`, the payloads
and the behaviour of the channels, including failing JSON encodings of the payloads,
`Call` returns the same error, leaves the same counter and the same world, and performs
the same channel operations in the same order as with `Debug` off. -/
theorem Call_Debug_irrelevant {σ : Type} (Debug : Bool) (now now2 : String)
    (p : TStandardClient σ) (ctx : Context) (method : String) (args : TStruct σ)
    (result : Option (TStruct σ)) (s : σ) :
    (Call Debug now p ctx method args result s).err
        = (Call false now2 p ctx method args result s).err
      ∧ (Call Debug now p ctx method args result s).client.seqId
        = (Call false now2 p ctx method args result s).client.seqId
      ∧ (Call Debug now p ctx method args result s).state
        = (Call false now2 p ctx method args result s).state
      ∧ (Call Debug now p ctx method args result s).events.filter Event.isChannelOp
        = (Call false now2 p ctx method args result s).events := by
  have hS : (Send ctx p.oprot (wrap32 (p.seqId + 1)) method args s).2.2.filter Event.isChannelOp
      = (Send ctx p.oprot (wrap32 (p.seqId + 1)) method args s).2.2 :=
    List.filter_eq_self.2 (fun e he => by
      simp [Event.isChannelOp, Send_onOutput ctx p.oprot _ method args s e he])
  rcases h : Send ctx p.oprot (wrap32 (p.seqId + 1)) method args s with ⟨_ | err, s1, evS⟩
  · rw [h] at hS
    cases result with
    | none =>
      simp only [Call, h, List.filter_append, filter_isChannelOp_deferred, hS]
      simp [deferred]
    | some result =>
      have hR : (Recv p.iprot (wrap32 (p.seqId + 1)) method result s1).2.2.filter
            Event.isChannelOp
          = (Recv p.iprot (wrap32 (p.seqId + 1)) method result s1).2.2 :=
        List.filter_eq_self.2 (fun e he => by
          simp [Event.isChannelOp, Recv_onInput p.iprot _ method result s1 e he])
      simp only [Call, h, List.filter_append, filter_isChannelOp_deferred, hS, hR]
      simp [deferred]
  · rw [h] at hS
    simp only [Call, h, List.filter_append, filter_isChannelOp_deferred, hS]
    simp [deferred]

/-- C15: in every `Call`, with or without a result payload, `WriteMessageBegin` is
invoked exactly once and the message kind passed to it is CALL; no `WriteMessageBegin`
with another kind, ONEWAY in particular, is among the operations, also for a one-way
call. -/
theorem Call_writes_kind_CALL {σ : Type} (Debug : Bool) (now : String) (p : TStandardClient σ)
    (ctx : Context) (method : String) (args : TStruct σ) (result : Option (TStruct σ)) (s : σ) :
    writtenKinds (Call Debug now p ctx method args result s).events = [CALL]
      ∧ writtenKinds (Call Debug now p ctx method args none s).events = [CALL]
      ∧ ONEWAY ∉ writtenKinds (Call Debug now p ctx method args result s).events
      ∧ (∀ name typeId seqId,
          Event.WriteMessageBegin name typeId seqId
              ∈ (Call Debug now p ctx method args result s).events →
            typeId = CALL)
      ∧ ∀ name seqId,
          Event.WriteMessageBegin name ONEWAY seqId
            ∉ (Call Debug now p ctx method args result s).events := by
  have hk := writtenKinds_Call Debug now p ctx method args result s
  have hmem : ∀ name typeId seqId,
      Event.WriteMessageBegin name typeId seqId
          ∈ (Call Debug now p ctx method args result s).events →
        typeId = CALL := by
    intro name typeId seqId h
    have := mem_writtenKinds _ name typeId seqId h
    rw [hk] at this
    simpa using this
  refine ⟨hk, writtenKinds_Call Debug now p ctx method args none s, ?_, hmem, ?_⟩
  · rw [hk]
    decide
  · intro name seqId h
    exact absurd (hmem name ONEWAY seqId h) (by decide)

/-! ## Receive path, continued -/

/-- C16: when `ReadMessageBegin` fails, `Recv` returns its error and performs no other
operation. On an envelope with the expected method name and sequence id and the kind
EXCEPTION: when the decoding of the remote exception fails, `Recv` returns the decoding
error and `ReadMessageEnd` is not invoked; when the decoding succeeds and `ReadMessageEnd`
fails, `Recv` returns the error of `ReadMessageEnd`, not the decoded exception. -/
theorem Recv_exception_failures {σ : Type} (iprot : TProtocol σ) (seqId : Int)
    (method : String) (result : TStruct σ) (s : σ) :
    (∀ err s1, iprot.ReadMessageBegin s = (.error err, s1) →
        Recv iprot seqId method result s = (some err, s1, [Event.ReadMessageBegin]))
      ∧ (∀ s1 err s2, iprot.ReadMessageBegin s = (.ok (method, EXCEPTION, seqId), s1) →
        iprot.ReadApplicationException s1 = (.error err, s2) →
        Recv iprot seqId method result s
          = (some err, s2, [Event.ReadMessageBegin, Event.ExceptionRead]))
      ∧ (∀ s1 typeId message s2 err s3,
        iprot.ReadMessageBegin s = (.ok (method, EXCEPTION, seqId), s1) →
        iprot.ReadApplicationException s1 = (.ok (typeId, message), s2) →
        iprot.ReadMessageEnd s2 = (some err, s3) →
        Recv iprot seqId method result s
          = (some err, s3,
              [Event.ReadMessageBegin, Event.ExceptionRead, Event.ReadMessageEnd])) := by
  refine ⟨?_, ?_, ?_⟩
  · intro err s1 h
    simp [Recv, h]
  · intro s1 err s2 h hx
    simp [Recv, h, hx]
  · intro s1 typeId message s2 err s3 h hx he
    simp [Recv, h, hx, he]

/-- C16, at concrete inputs: a failing `ReadMessageBegin`; a remote exception that fails
to decode; a decoded remote exception of kind 6 followed by a failing `ReadMessageEnd`. -/
theorem Recv_exception_failures_witness :
    Recv (scriptedProtocol (.error (TError.other "begin")) (.ok (6, "boom")) none)
        7 "fail" emptyStruct (wireSent "fail" 7)
        = (some (TError.other "begin"), { name := "fail", seq := 7, count := 5 },
            [Event.ReadMessageBegin])
      ∧ Recv (scriptedProtocol (.ok ("fail", EXCEPTION, 7)) (.error (TError.other "decode")) none)
        7 "fail" emptyStruct (wireSent "fail" 7)
        = (some (TError.other "decode"), { name := "fail", seq := 7, count := 6 },
            [Event.ReadMessageBegin, Event.ExceptionRead])
      ∧ Recv (scriptedProtocol (.ok ("fail", EXCEPTION, 7)) (.ok (6, "boom"))
          (some (TError.other "end")))
        7 "fail" emptyStruct (wireSent "fail" 7)
        = (some (TError.other "end"), { name := "fail", seq := 7, count := 7 },
            [Event.ReadMessageBegin, Event.ExceptionRead, Event.ReadMessageEnd]) :=
  ⟨(Recv_exception_failures _ 7 "fail" emptyStruct (wireSent "fail" 7)).1
      (TError.other "begin") { name := "fail", seq := 7, count := 5 } rfl,
    (Recv_exception_failures _ 7 "fail" emptyStruct (wireSent "fail" 7)).2.1
      { name := "fail", seq := 7, count := 5 } (TError.other "decode")
      { name := "fail", seq := 7, count := 6 } rfl rfl,
    (Recv_exception_failures _ 7 "fail" emptyStruct (wireSent "fail" 7)).2.2
      { name := "fail", seq := 7, count := 5 } 6 "boom"
      { name := "fail", seq := 7, count := 6 } (TError.other "end")
      { name := "fail", seq := 7, count := 7 } rfl rfl rfl⟩

/-- C20: when the envelope read by `ReadMessageBegin` is rejected as a protocol violation
(its method name differs from the expected one, or its sequence id differs, or its kind is
neither REPLY nor EXCEPTION), the only operation of `Recv` is that `ReadMessageBegin`: no
payload is read, `ReadMessageEnd` is not invoked, the world stays as `ReadMessageBegin`
left it, and the error is one of the three application exceptions of this layer. -/
theorem Recv_rejection_frame {σ : Type} (iprot : TProtocol σ) (seqId : Int) (method : String)
    (result : TStruct σ) (s s1 : σ) (rMethod : String) (rKind : TMessageType) (rSeqId : Int)
    (hread : iprot.ReadMessageBegin s = (.ok (rMethod, rKind, rSeqId), s1))
    (hrej : rMethod ≠ method ∨ rSeqId ≠ seqId ∨ (rKind ≠ REPLY ∧ rKind ≠ EXCEPTION)) :
    (Recv iprot seqId method result s).2.2 = [Event.ReadMessageBegin]
      ∧ (Recv iprot seqId method result s).2.1 = s1
      ∧ Event.ReadMessageEnd ∉ (Recv iprot seqId method result s).2.2
      ∧ ∃ typeId message,
          (Recv iprot seqId method result s).1
            = some (TError.applicationException typeId message)
          ∧ typeId ∈ [WRONG_METHOD_NAME, BAD_SEQUENCE_ID, INVALID_MESSAGE_TYPE_EXCEPTION] := by
  by_cases hm : method = rMethod
  · by_cases hs : seqId = rSeqId
    · rcases hrej with h | h | ⟨hr, hx⟩
      · exact absurd hm.symm h
      · exact absurd hs.symm h
      · simp [Recv, hread, hm, hs, hr, hx, NewTApplicationException]
    · simp [Recv, hread, hm, hs, NewTApplicationException]
  · simp [Recv, hread, hm, NewTApplicationException]

/-- C20, at a concrete input: the call "ping" with sequence id 7 is answered by
("ping", CALL, 7). -/
theorem Recv_rejection_frame_witness :
    (Recv (echoProtocol { rename := id, kind := CALL, shift := 0, flush := none })
        7 "ping" emptyStruct (wireSent "ping" 7)).2.2 = [Event.ReadMessageBegin]
      ∧ (Recv (echoProtocol { rename := id, kind := CALL, shift := 0, flush := none })
        7 "ping" emptyStruct (wireSent "ping" 7)).2.1 = { name := "ping", seq := 7, count := 5 } :=
  ⟨(Recv_rejection_frame _ 7 "ping" emptyStruct (wireSent "ping" 7)
      { name := "ping", seq := 7, count := 5 } "ping" CALL 7 (by simp [echoProtocol, wireSent])
      (Or.inr (Or.inr (by decide)))).1,
    (Recv_rejection_frame _ 7 "ping" emptyStruct (wireSent "ping" 7)
      { name := "ping", seq := 7, count := 5 } "ping" CALL 7 (by simp [echoProtocol, wireSent])
      (Or.inr (Or.inr (by decide)))).2.1⟩

/-! ## Tracing -/

/-- C17: with `Debug` off a `Call` prints nothing. With `Debug` on, every `Call` prints
exactly one line, as its last operation, whatever the return path. The text of the line is
the formatted time, then "--[", the method name, "] req: ", the request snapshot,
", res: ", the response snapshot and a blank. The request snapshot is the JSON encoding of
the argument payload, or "Not Request Body." when that encoding fails. The response
snapshot is empty whenever the call returns an error (a failure of `Send` or of `Recv`)
and whenever the call is one-way; after a two-way call that returns nil it is the JSON
encoding of the result payload when that encoding succeeds. -/
theorem Call_trace_record {σ : Type} (now : String) (p : TStandardClient σ) (ctx : Context)
    (method : String) (args : TStruct σ) (result : Option (TStruct σ)) (s : σ) :
    printed (Call false now p ctx method args result s).events = []
      ∧ ∃ req res,
          printed (Call true now p ctx method args result s).events
            = [now ++ "--[" ++ method ++ "] req: " ++ req ++ ", res: " ++ res ++ " "]
          ∧ (Call true now p ctx method args result s).events.getLast?
            = some (Event.Println
                (now ++ "--[" ++ method ++ "] req: " ++ req ++ ", res: " ++ res ++ " "))
          ∧ (∀ text, args.Marshal s = .ok text → req = text)
          ∧ (∀ e, args.Marshal s = .error e → req = "Not Request Body.")
          ∧ ((Call true now p ctx method args result s).err ≠ none → res = "")
          ∧ (result = none → res = "")
          ∧ (∀ r text, result = some r →
              (Call true now p ctx method args result s).err = none →
              r.Marshal (Call true now p ctx method args result s).state = .ok text →
              res = text) := by
  have hS := printed_Send ctx p.oprot (wrap32 (p.seqId + 1)) method args s
  have hreq1 : ∀ text, args.Marshal s = .ok text → reqSnapshot true args s = text := by
    intro text h
    simp [reqSnapshot, h]
  have hreq2 : ∀ e, args.Marshal s = .error e → reqSnapshot true args s = "Not Request Body." := by
    intro e h
    simp [reqSnapshot, h]
  rcases h : Send ctx p.oprot (wrap32 (p.seqId + 1)) method args s with ⟨_ | err, s1, evS⟩
  · rw [h] at hS
    cases result with
    | none =>
      refine ⟨by simp [Call, h, printed_append, hS, printed_deferred],
        reqSnapshot true args s, "", ?_, ?_, hreq1, hreq2, ?_, ?_, ?_⟩
      · simp [Call, h, printed_append, hS, printed_deferred, traceLine]
      · simp [Call, h, deferred, traceLine]
      · intro _; rfl
      · intro _; rfl
      · intro r text hr
        simp at hr
    | some result =>
      have hR := printed_Recv p.iprot (wrap32 (p.seqId + 1)) method result s1
      refine ⟨by simp [Call, h, printed_append, hS, hR, printed_deferred],
        reqSnapshot true args s,
        resSnapshot true (Recv p.iprot (wrap32 (p.seqId + 1)) method result s1).1 result
          (Recv p.iprot (wrap32 (p.seqId + 1)) method result s1).2.1, ?_, ?_, hreq1, hreq2,
        ?_, ?_, ?_⟩
      · simp [Call, h, printed_append, hS, hR, printed_deferred, traceLine]
      · simp [Call, h, deferred, traceLine]
      · intro herr
        simp only [Call, h] at herr
        cases hr : (Recv p.iprot (wrap32 (p.seqId + 1)) method result s1).1 with
        | none => exact absurd hr herr
        | some e => simp [resSnapshot]
      · intro hnone
        simp at hnone
      · intro r text hr herr hjson
        simp only [Option.some.injEq] at hr
        subst hr
        simp only [Call, h] at herr hjson
        simp [resSnapshot, herr, hjson]
  · rw [h] at hS
    refine ⟨by simp [Call, h, printed_append, hS, printed_deferred],
      reqSnapshot true args s, "", ?_, ?_, hreq1, hreq2, ?_, ?_, ?_⟩
    · simp [Call, h, printed_append, hS, printed_deferred, traceLine]
    · simp [Call, h, deferred, traceLine]
    · intro _; rfl
    · intro _; rfl
    · intro r text _ herr
      simp [Call, h] at herr

/-- C17, at a concrete input: a two-way call "ping" at time "t" that succeeds, with empty
argument and result payloads, prints the one line built from "t", "ping" and the two
encodings. -/
theorem Call_trace_record_witness :
    printed (Call true "t"
        (NewTStandardClient
          (echoProtocol { rename := id, kind := REPLY, shift := 0, flush := none })
          (echoProtocol { rename := id, kind := REPLY, shift := 0, flush := none }))
        emptyContext "ping" emptyStruct (some emptyStruct) wire0).events
      = ["t--[ping] req: \x7b\x7d, res: \x7b\x7d "] := by
  obtain ⟨req, res, hline, _, hreq, _, _, _, hres⟩ :=
    (Call_trace_record "t"
      (NewTStandardClient
        (echoProtocol { rename := id, kind := REPLY, shift := 0, flush := none })
        (echoProtocol { rename := id, kind := REPLY, shift := 0, flush := none }))
      emptyContext "ping" emptyStruct (some emptyStruct) wire0).2
  have h1 : req = "\x7b\x7d" := hreq _ rfl
  have h2 : res = "\x7b\x7d" := hres emptyStruct _ rfl (by decide) rfl
  rw [hline, h1, h2]
  decide

/-- C18, as stated, fails: on a two-way call that succeeds with `Debug` on and a result
payload that has no JSON encoding, the printed line carries the placeholder
"Not Response body." as its response snapshot, not the empty string. -/
theorem Call_response_snapshot_counterexample :
    (Call true "t"
        (NewTStandardClient
          (echoProtocol { rename := id, kind := REPLY, shift := 0, flush := none })
          (echoProtocol { rename := id, kind := REPLY, shift := 0, flush := none }))
        emptyContext "ping" emptyStruct (some unencodableStruct) wire0).err = none
      ∧ printed (Call true "t"
        (NewTStandardClient
          (echoProtocol { rename := id, kind := REPLY, shift := 0, flush := none })
          (echoProtocol { rename := id, kind := REPLY, shift := 0, flush := none }))
        emptyContext "ping" emptyStruct (some unencodableStruct) wire0).events
        = [traceLine "t" "ping" "\x7b\x7d" "Not Response body."]
      ∧ ¬ (printed (Call true "t"
        (NewTStandardClient
          (echoProtocol { rename := id, kind := REPLY, shift := 0, flush := none })
          (echoProtocol { rename := id, kind := REPLY, shift := 0, flush := none }))
        emptyContext "ping" emptyStruct (some unencodableStruct) wire0).events
        = [traceLine "t" "ping" "\x7b\x7d" ""]) := by
  decide

/-- C18, amended: with `Debug` on, when `Send` and `Recv` both return nil in a two-way
call and the JSON encoding of the result payload fails, `Call` still returns nil (the
encoding error is not returned) and the one line it prints carries the placeholder
"Not Response body." as its response snapshot; likewise a failing JSON encoding of the
argument payload makes the request snapshot the placeholder "Not Request Body.". -/
theorem Call_response_placeholder {σ : Type} (now : String) (p : TStandardClient σ)
    (ctx : Context) (method : String) (args result : TStruct σ) (s : σ) (e : TError)
    (hsend : (Send ctx p.oprot (wrap32 (p.seqId + 1)) method args s).1 = none)
    (hrecv : (Recv p.iprot (wrap32 (p.seqId + 1)) method result
        (Send ctx p.oprot (wrap32 (p.seqId + 1)) method args s).2.1).1 = none)
    (hjson : result.Marshal
        (Recv p.iprot (wrap32 (p.seqId + 1)) method result
          (Send ctx p.oprot (wrap32 (p.seqId + 1)) method args s).2.1).2.1 = .error e) :
    (Call true now p ctx method args (some result) s).err = none
      ∧ printed (Call true now p ctx method args (some result) s).events
        = [traceLine now method (reqSnapshot true args s) "Not Response body."]
      ∧ (∀ e2, args.Marshal s = .error e2 → reqSnapshot true args s = "Not Request Body.") := by
  have hS := printed_Send ctx p.oprot (wrap32 (p.seqId + 1)) method args s
  refine ⟨?_, ?_, ?_⟩
  · rcases h : Send ctx p.oprot (wrap32 (p.seqId + 1)) method args s with ⟨_ | err, s1, evS⟩
    · rw [h] at hrecv
      simpa [Call, h] using hrecv
    · rw [h] at hsend
      simp at hsend
  · rcases h : Send ctx p.oprot (wrap32 (p.seqId + 1)) method args s with ⟨_ | err, s1, evS⟩
    · rw [h] at hrecv hjson hS
      have hR := printed_Recv p.iprot (wrap32 (p.seqId + 1)) method result s1
      simp only [] at hrecv hjson hS
      simp [Call, h, printed_append, hS, hR, printed_deferred, resSnapshot, hrecv, hjson]
    · rw [h] at hsend
      simp at hsend
  · intro e2 h2
    simp [reqSnapshot, h2]

/-- C18, amended, at a concrete input: a two-way call "ping" that succeeds, with argument
and result payloads that have no JSON encoding. -/
theorem Call_response_placeholder_witness :
    (Call true "t"
        (NewTStandardClient
          (echoProtocol { rename := id, kind := REPLY, shift := 0, flush := none })
          (echoProtocol { rename := id, kind := REPLY, shift := 0, flush := none }))
        emptyContext "ping" unencodableStruct (some unencodableStruct) wire0).err = none
      ∧ printed (Call true "t"
        (NewTStandardClient
          (echoProtocol { rename := id, kind := REPLY, shift := 0, flush := none })
          (echoProtocol { rename := id, kind := REPLY, shift := 0, flush := none }))
        emptyContext "ping" unencodableStruct (some unencodableStruct) wire0).events
        = [traceLine "t" "ping" (reqSnapshot true unencodableStruct wire0) "Not Response body."]
      ∧ reqSnapshot true unencodableStruct wire0 = "Not Request Body." :=
  ⟨(Call_response_placeholder "t"
      (NewTStandardClient
        (echoProtocol { rename := id, kind := REPLY, shift := 0, flush := none })
        (echoProtocol { rename := id, kind := REPLY, shift := 0, flush := none }))
      emptyContext "ping" unencodableStruct unencodableStruct wire0 (TError.other "json")
      (by decide) (by decide) rfl).1,
    (Call_response_placeholder "t"
      (NewTStandardClient
        (echoProtocol { rename := id, kind := REPLY, shift := 0, flush := none })
        (echoProtocol { rename := id, kind := REPLY, shift := 0, flush := none }))
      emptyContext "ping" unencodableStruct unencodableStruct wire0 (TError.other "json")
      (by decide) (by decide) rfl).2.1,
    (Call_response_placeholder "t"
      (NewTStandardClient
        (echoProtocol { rename := id, kind := REPLY, shift := 0, flush := none })
        (echoProtocol { rename := id, kind := REPLY, shift := 0, flush := none }))
      emptyContext "ping" unencodableStruct unencodableStruct wire0 (TError.other "json")
      (by decide) (by decide) rfl).2.2 (TError.other "json") rfl⟩

/-! ## Sequence allocation over a run of calls -/

/-- C19: on a client freshly built by `NewTStandardClient`, for every `n ≥ 1` the `n`-th
of any calls made one after the other writes exactly one sequence id, `n` wrapped to the
signed 32-bit range, and leaves the counter there, whatever the arguments and outcomes of
the calls; the id is `n` itself while `n < 2^31`, so the first call writes 1. -/
theorem runCalls_sequence_ids {σ : Type} (inputProtocol outputProtocol : TProtocol σ) (s : σ)
    (cs : List (CallArgs σ)) (n : Nat) (h1 : 1 ≤ n) (hn : n ≤ cs.length) :
    ((runCalls (NewTStandardClient inputProtocol outputProtocol) s cs).map
        (fun r => (writtenSeqIds r.events, r.client.seqId)))[n - 1]?
        = some ([wrap32 n], wrap32 n)
      ∧ ((n : Int) < 2 ^ 31 → wrap32 n = n)
      ∧ (n = 1 → wrap32 n = 1) := by
  refine ⟨?_, ?_, ?_⟩
  · have := runCalls_getElem? cs (NewTStandardClient inputProtocol outputProtocol) s (n - 1)
      (by omega)
    rw [this]
    have e : (NewTStandardClient inputProtocol outputProtocol).seqId + (((n - 1 : Nat) : Int) + 1)
        = (n : Int) := by
      simp only [NewTStandardClient]
      omega
    rw [e]
  · intro h
    exact wrap32_of_range _ (by omega) h
  · rintro rfl
    decide

/-- C19, at a concrete input: three calls on a fresh client, the first failing in `Send`
(its arguments cannot be written), the second one-way, the third failing in `Recv` (the
peer answers with the kind ONEWAY); they write the ids 1, 2 and 3. -/
theorem runCalls_sequence_ids_witness :
    ((runCalls
        (NewTStandardClient
          (echoProtocol { rename := id, kind := ONEWAY, shift := 0, flush := none })
          (echoProtocol { rename := id, kind := ONEWAY, shift := 0, flush := none }))
        wire0
        [{ Debug := false, now := "", ctx := emptyContext, method := "a", args := brokenStruct,
            result := some emptyStruct },
          { Debug := false, now := "", ctx := emptyContext, method := "b", args := emptyStruct,
            result := none },
          { Debug := true, now := "t", ctx := emptyContext, method := "c", args := emptyStruct,
            result := some emptyStruct }]).map
        (fun r => (writtenSeqIds r.events, r.client.seqId)))[3 - 1]?
        = some ([wrap32 (3 : Nat)], wrap32 (3 : Nat))
      ∧ (runCalls
        (NewTStandardClient
          (echoProtocol { rename := id, kind := ONEWAY, shift := 0, flush := none })
          (echoProtocol { rename := id, kind := ONEWAY, shift := 0, flush := none }))
        wire0
        [{ Debug := false, now := "", ctx := emptyContext, method := "a", args := brokenStruct,
            result := some emptyStruct },
          { Debug := false, now := "", ctx := emptyContext, method := "b", args := emptyStruct,
            result := none },
          { Debug := true, now := "t", ctx := emptyContext, method := "c", args := emptyStruct,
            result := some emptyStruct }]).map
        (fun r => (r.err, writtenSeqIds r.events))
        = [(some (TError.other "write"), [1]), (none, [2]),
            (some (TError.applicationException INVALID_MESSAGE_TYPE_EXCEPTION
              "c: invalid message type"), [3])] :=
  ⟨(runCalls_sequence_ids _ _ wire0 _ 3 (by decide) (by decide)).1, by decide⟩

end Thrift
